import Mathlib

/-!
Verification development for the pdb2pqr structure-preparation pipeline
(`pdb2pqr/run.py`).

The orchestration code of `run.py` is embedded shallowly below.  The
collaborators that `run.py` calls but whose code lives outside this file
(the protein/residue/atom classes, routines, hydrogens, forcefield,
ligff) are modelled from the specification of their interfaces; each such
definition carries a doc comment starting with `Modelled from the spec:`.

Python object identity is modelled by numeric identity fields:
residues carry `rid`, atoms carry `aid`.  A list such as `misslist`
holds atom values whose identity is their `aid`; membership tests and
removals (`atom in misslist`, `misslist.pop(misslist.index(atom))`)
are by `aid`, exactly as Python identity-based `__eq__` behaves here.
Mutation of an aliased object is modelled by rewriting every container
slot holding the same identity.  Charges and radii are rationals.
-/

/-- Modelled from the spec: the residue-kind classification used by the
pipeline (checking residue type for ligand / amino / nucleic / water
handling).  `amino` stands for the `aa.Amino` family, `nucleic` for
`na.Nucleic`, `water` for `aa.WAT`, `ligand` for `aa.LIG`, and `other`
for any remaining residue class. -/
inductive ResKind where
  | amino
  | nucleic
  | water
  | ligand
  | other
deriving DecidableEq, Repr

/-- An atom record.  `aid` models Python object identity.  The fields
`resName`, `resSeq` and `resKind` model the `atom.residue` back
reference (its name, sequence number and class), which is immutable
during the stages embedded here.  `ffcharge` and `radius` are the
mutable assigned parameters. -/
structure Atom where
  aid : Nat
  serial : Int
  name : String
  altLoc : String
  typ : String
  resName : String
  resSeq : Int
  resKind : ResKind
  ffcharge : ℚ
  radius : ℚ
deriving DecidableEq, Repr

/-- A residue record.  `rid` models Python object identity.  `isHis`
marks residues of the histidine family (`aa.HIS`). -/
structure Residue where
  rid : Nat
  name : String
  chainId : String
  resSeq : Int
  kind : ResKind
  isHis : Bool
  atoms : List Atom
deriving DecidableEq, Repr

/-- A chain: an ordered list of residues. -/
structure Chain where
  residues : List Residue
deriving DecidableEq, Repr

/-- The structure model: the chains and the flat residue container
`protein.residues`.  In the Python source both containers alias the same
residue objects; aliasing is modelled through `rid`. -/
structure Protein where
  chains : List Chain
  residues : List Residue
deriving DecidableEq, Repr

/-- Modelled from the spec: `residue.get_atoms()` enumerates the atoms
of the residue. -/
def Residue.get_atoms (r : Residue) : List Atom :=
  r.atoms

/-- Modelled from the spec: `residue.get_charge()` is the derived net
charge of the residue, the sum of its atoms' assigned charges. -/
def Residue.get_charge (r : Residue) : ℚ :=
  (r.atoms.map Atom.ffcharge).sum

/-- Modelled from the spec: `protein.get_atoms()` enumerates every atom
of the structure. -/
def Protein.get_atoms (p : Protein) : List Atom :=
  (p.residues.map Residue.atoms).flatten

/-- Modelled from the spec: `protein.get_residues()` enumerates the
residues of the structure (the flat residue container). -/
def Protein.get_residues (p : Protein) : List Residue :=
  p.residues

/-- Python `int()` applied to a rational: truncation toward zero (floor
for nonnegative values, ceiling for negative ones).  This is the
conversion used in `abs(charge - int(charge)) > 0.001`. -/
def truncQ (q : ℚ) : ℤ :=
  if 0 ≤ q then ⌊q⌋ else ⌈q⌉

/-- The hit/miss bookkeeping state threaded through force-field
parameterization and ligand reconciliation: the structure, the two atom
lists, the `ligsuccess` flag and the warnings emitted so far. -/
structure RState where
  protein : Protein
  hitlist : List Atom
  misslist : List Atom
  ligsuccess : Bool
  warnings : List String
deriving DecidableEq, Repr

/-- Identity-based membership of an atom id in an atom list: models
Python `atom in misslist` (object identity). -/
def aidIn : List Atom → Nat → Bool
  | [], _ => false
  | a :: rest, x => if a.aid = x then true else aidIn rest x

/-- Remove the first atom with the given id: models
`misslist.pop(misslist.index(atom))` (first occurrence, by identity). -/
def eraseAid : List Atom → Nat → List Atom
  | [], _ => []
  | a :: rest, x => if a.aid = x then rest else a :: eraseAid rest x

/-- The per-atom assignment loop of ligand reconciliation
(`run.py` 340-342): every atom of the residue receives the ligand
parameterizer's charge and radius for its name. -/
def updateRes (lig : String → ℚ × ℚ) (r : Residue) : Residue :=
  { r with atoms := r.atoms.map fun a =>
      { a with ffcharge := (lig a.name).1, radius := (lig a.name).2 } }

/-- The miss-list pops of ligand reconciliation (`run.py` 343-345):
walk the residue's atoms in order; each atom found in the miss list is
removed from it (first occurrence, by identity) and appended to the
temporary success list.  Returns the new miss list and the temporary
list. -/
def popAtoms : List Atom → List Atom → List Atom × List Atom
  | [], miss => (miss, [])
  | a :: rest, miss =>
    if aidIn miss a.aid then
      let p := popAtoms rest (eraseAid miss a.aid)
      (p.1, a :: p.2)
    else
      popAtoms rest miss

/-- Write an updated residue value back into every container slot that
holds the same object (same `rid`): the value model of Python aliasing
between `protein.residues` and the chains' residue lists. -/
def replaceRes (p : Protein) (r' : Residue) : Protein :=
  { chains := p.chains.map fun ch =>
      { residues := ch.residues.map fun x => if x.rid = r'.rid then r' else x },
    residues := p.residues.map fun x => if x.rid = r'.rid then r' else x }

/-- The ligand-failure removal (`run.py` 354-358): remove the residue
from `protein.residues` and from every chain that contains it (first
occurrence each, as Python `list.remove`). -/
def removeRes (p : Protein) (r' : Residue) : Protein :=
  { chains := p.chains.map fun ch => { residues := ch.residues.erase r' },
    residues := p.residues.erase r' }

/-- The warning text emitted when a ligand fails the integral-charge
check (`run.py` 350-352). -/
def ligandDropWarning : String :=
  "WARNING: PDB2PQR could not successfully parameterize the desired ligand; it has been left out of the PQR file."

/-- One iteration of the ligand-reconciliation loop (`run.py` 336-362):
if the residue is a ligand, assign the parameterizer's charges and radii
to its atoms, pop its atoms out of the miss list into a temporary list,
then test `abs(charge - int(charge)) > 0.001`.  On failure the residue
is removed from the structure and a warning recorded; on success
`ligsuccess` is set and the temporary list is appended to the hit
list.  (`ligand.make_up2date(residue)` is an external cache refresh,
assumed side-effect-free on the state modelled here.) -/
def ligStep (lig : String → ℚ × ℚ) (s : RState) (r : Residue) : RState :=
  if r.kind = ResKind.ligand then
    let r' := updateRes lig r
    let p1 := replaceRes s.protein r'
    let pop := popAtoms r'.get_atoms s.misslist
    let c := r'.get_charge
    if (1 : ℚ)/1000 < |c - (truncQ c : ℚ)| then
      { protein := removeRes p1 r'
        hitlist := s.hitlist
        misslist := pop.1
        ligsuccess := s.ligsuccess
        warnings := s.warnings ++ [ligandDropWarning] }
    else
      { protein := p1
        hitlist := s.hitlist ++ pop.2
        misslist := pop.1
        ligsuccess := true
        warnings := s.warnings }
  else
    s

/-- The ligand-reconciliation loop over a snapshot of the residue
enumeration. -/
def ligLoop (lig : String → ℚ × ℚ) : List Residue → RState → RState
  | [], s => s
  | r :: rest, s => ligLoop lig rest (ligStep lig s r)

/-- Ligand reconciliation (`run.py` 333-362): `ligsuccess` starts at 0,
then every residue of the structure is processed in enumeration order. -/
def reconcileLigands (lig : String → ℚ × ℚ) (st : RState) : RState :=
  ligLoop lig st.protein.get_residues { st with ligsuccess := false }

/-- `isinstance(atom.residue, (aa.Amino, na.Nucleic))`: the residue of
the atom is a standard amino acid or a standard nucleic acid. -/
def isBiopolymer (a : Atom) : Bool :=
  match a.resKind with
  | ResKind.amino => true
  | ResKind.nucleic => true
  | _ => false

/-- The miss-list cleanup loop body (`run.py` 366-370): iterate over a
snapshot of the miss list; every atom whose residue is not an amino acid
or nucleic acid is removed (first occurrence) from the miss list. -/
def cleanupLoop : List Atom → List Atom → List Atom
  | [], m => m
  | a :: rest, m =>
    cleanupLoop rest (if isBiopolymer a then m else m.erase a)

/-- The miss-list cleanup (`run.py` 366-370): `templist = misslist[:]`
then the removal loop over the snapshot. -/
def missCleanupList (miss : List Atom) : List Atom :=
  cleanupLoop miss miss

/-- The guarded miss-list cleanup (`run.py` 364-370): runs only when
`ligsuccess` was set. -/
def missCleanup (s : RState) : RState :=
  if s.ligsuccess then { s with misslist := missCleanupList s.misslist } else s

/-- Ligand reconciliation followed by the miss-list cleanup
(`run.py` 333-370). -/
def reconcileAndCleanup (lig : String → ℚ × ℚ) (st : RState) : RState :=
  missCleanup (reconcileLigands lig st)

/-- The missed-ligand-name derivation (`run.py` 401-407): walk the final
miss list; skip atoms of amino-acid or nucleic-acid residues; collect
each remaining atom's residue name on first appearance. -/
def missedLigandResidues (miss : List Atom) : List String :=
  miss.foldl
    (fun acc a =>
      if isBiopolymer a then acc
      else if a.resName ∈ acc then acc
      else acc ++ [a.resName])
    []

/-- First-seen-order deduplication of a list of names: keeps the first
occurrence of each name.  Used to state the specification's description
of the missed-ligand-name list. -/
def firstSeenDedup (l : List String) : List String :=
  l.foldl (fun acc n => if n ∈ acc then acc else acc ++ [n]) []

/-- The specification's description of the missed-ligand-name list
(stated from the spec's words, for comparison with
`missedLigandResidues`): residue names of the miss-list atoms whose
residue is neither a standard amino acid nor a standard nucleic acid,
deduplicated, first-seen order. -/
def specMissedLigandNames (miss : List Atom) : List String :=
  firstSeenDedup ((miss.filter fun a => !isBiopolymer a).map Atom.resName)

/-- Well-formedness of a reconciliation state, expressing in the value
model what is automatic for Python object graphs: residue identities in
the flat container are distinct, the chains hold (aliases of) residues
of the flat container with distinct identities per chain, and the miss
list holds distinct atom objects. -/
def WFState (st : RState) : Prop :=
  (st.protein.residues.map Residue.rid).Nodup ∧
  (∀ ch ∈ st.protein.chains, ∀ x ∈ ch.residues, x ∈ st.protein.residues) ∧
  (∀ ch ∈ st.protein.chains, (ch.residues.map Residue.rid).Nodup) ∧
  (st.misslist.map Atom.aid).Nodup

instance (st : RState) : Decidable (WFState st) := by
  unfold WFState
  infer_instance

/-- A ligand residue that reconciliation has fully dealt with relative
to a miss list: its parameters are already assigned, it passes the
integral-charge test, and none of its atoms remain in the miss list. -/
def ligDone (lig : String → ℚ × ℚ) (miss : List Atom) (r : Residue) : Prop :=
  updateRes lig r = r ∧
  |r.get_charge - (truncQ r.get_charge : ℚ)| ≤ (1 : ℚ)/1000 ∧
  ∀ a ∈ r.atoms, aidIn miss a.aid = false

/-- Invariant of the ligand-reconciliation loop, parameterized by the
residues still to be processed: the state is well formed, the remaining
residues are present and have distinct identities, every ligand residue
of the structure is either still to be processed or fully dealt with,
and `ligsuccess` is set exactly when an already-processed ligand residue
survives in the structure. -/
def StInv (lig : String → ℚ × ℚ) (l : List Residue) (s : RState) : Prop :=
  (s.protein.residues.map Residue.rid).Nodup ∧
  (∀ ch ∈ s.protein.chains, ∀ x ∈ ch.residues, x ∈ s.protein.residues) ∧
  (∀ ch ∈ s.protein.chains, (ch.residues.map Residue.rid).Nodup) ∧
  (s.misslist.map Atom.aid).Nodup ∧
  (∀ r ∈ l, r ∈ s.protein.residues) ∧
  (l.map Residue.rid).Nodup ∧
  (∀ x ∈ s.protein.residues, x.kind = ResKind.ligand →
    x ∈ l ∨ ligDone lig s.misslist x) ∧
  (s.ligsuccess = true ↔
    ∃ x ∈ s.protein.residues, x ∉ l ∧ x.kind = ResKind.ligand)

/-- The record kinds of the parsed input that `run.py` distinguishes:
`headerKind` collapses the twelve header/metadata record classes listed
in `get_old_header` (HEADER, TITLE, COMPND, SOURCE, KEYWDS, EXPDTA,
AUTHOR, REVDAT, JRNL, REMARK, SPRSDE, NUMMDL); `coordKind` collapses the
classes tested by the water filter (HETATM, ATOM, SIGATM, SEQADV);
`otherKind` is everything else. -/
inductive RecKind where
  | headerKind
  | coordKind
  | otherKind
deriving DecidableEq, Repr

/-- A parsed input record: its kind, its residue-name field (meaningful
for coordinate records) and its rendered text (`str(pdb_obj)`). -/
structure Record where
  kind : RecKind
  resName : String
  text : String
deriving DecidableEq, Repr

/-- Modelled from the spec: the program version string imported from the
package (`__version__`).  Its exact value is irrelevant to the
properties proved here. -/
def versionString : String :=
  "2.1.1"

/-- `get_old_header` (`run.py` 22-39): concatenate the rendered text of
the leading header-type records, each followed by a newline, stopping at
the first record of any other kind. -/
def get_old_header : List Record → String
  | [] => ""
  | r :: rest =>
    if r.kind = RecKind.headerKind then r.text ++ "\n" ++ get_old_header rest
    else ""

/-- A string of `n` zero digits, used for fixed-point padding. -/
def zeroPad : Nat → String
  | 0 => ""
  | n + 1 => "0" ++ zeroPad n

/-- Round a rational to the nearest integer, ties to even: the rounding
mode of C `printf`-style fixed-point formatting used by Python `%`
formatting (floating-point representation error is not modelled). -/
def roundHalfEven (q : ℚ) : ℤ :=
  if q - ⌊q⌋ < 1/2 then ⌊q⌋
  else if (1 : ℚ)/2 < q - ⌊q⌋ then ⌊q⌋ + 1
  else if ⌊q⌋ % 2 = 0 then ⌊q⌋ else ⌊q⌋ + 1

/-- Fixed-point decimal rendering of a rational with `prec` digits after
the point: models Python `"%.4f" % x` and `"%.2f" % x`. -/
def formatFixed (prec : Nat) (q : ℚ) : String :=
  let n : ℤ := roundHalfEven (q * (10 : ℚ) ^ prec)
  let sign := if n < 0 ∨ (n = 0 ∧ q < 0) then "-" else ""
  let m := n.natAbs
  let ip := m / 10 ^ prec
  let fp := m % 10 ^ prec
  let fpStr := toString fp
  sign ++ toString ip ++ "." ++ zeroPad (prec - fpStr.length) ++ fpStr

/-- Modelled from the spec: the rendering `"%s" % residue` of a residue
identity (name, chain and sequence number) used in the header warning
lines. -/
def Residue.render (r : Residue) : String :=
  r.name ++ " " ++ r.chainId ++ " " ++ toString r.resSeq

/-- One per-atom warning line of the cif header (`run.py` 83-86). -/
def cifAtomLine (a : Atom) : String :=
  "             " ++ toString a.serial ++ " " ++ a.name ++ " in " ++
    a.resName ++ " " ++ toString a.resSeq ++ "\n"

/-- One per-atom warning line of the legacy header (`run.py` 157-160). -/
def remarkAtomLine (a : Atom) : String :=
  "REMARK   5              " ++ toString a.serial ++ " " ++ a.name ++
    " in " ++ a.resName ++ " " ++ toString a.resSeq ++ "\n"

/-- `print_pqr_header_cif` (`run.py` 42-120): the structured-text (cif)
header builder, transcribed line by line (including the source's
spelling of the explanatory note). -/
def print_pqr_header_cif (atomlist : List Atom) (reslist : List Residue)
    (charge : ℚ) (force_field : Option String) (ph_calc_method : Option String)
    (ph : ℚ) (ffout : Option String) (include_old_header : Bool) : String :=
  let ff := match force_field with
    | none => "User force field"
    | some f => f.toUpper
  "#\n" ++
  "loop_\n" ++
  "_pdbx_database_remark.id\n" ++
  "_pdbx_database_remark.text\n" ++
  "1\n" ++
  ";\n" ++
  "PQR file generated by PDB2PQR (Version " ++ versionString ++ ")\n" ++
  "\n" ++
  "Forcefiled used: " ++ ff ++ "\n" ++
  (match ffout with
   | some s => "Naming scheme used: " ++ s ++ "\n"
   | none => "") ++
  "\n" ++
  (match ph_calc_method with
   | some m => "pKas calculated by " ++ m ++ " and assigned using pH " ++
       formatFixed 2 ph ++ "\n"
   | none => "") ++
  ";\n" ++
  "2\n" ++
  ";\n" ++
  (if 0 < atomlist.length then
    "Warning: PDB2PQR was unable to assign charges\n" ++
    "to the following atoms (omitted below):\n" ++
    String.join (atomlist.map cifAtomLine) ++
    "This is usually due to the fat thtat this residue is not\n" ++
    "an amino acid or nucleic acid; or, there are no parameters\n" ++
    "available for the specific protonation state of this\n" ++
    "residue in the selected forcefield.\n"
   else "") ++
  (if 0 < reslist.length then
    "\n" ++
    "Warning: Non-integral net charges were found in\n" ++
    "the following residues:\n" ++
    String.join (reslist.map fun residue =>
      "              " ++ residue.render ++ " - Residue Charge: " ++
        formatFixed 4 residue.get_charge ++ "\n")
   else "") ++
  ";\n" ++
  "3\n" ++
  ";\n" ++
  "Total charge on this protein: " ++ formatFixed 4 charge ++ " e\n" ++
  ";\n" ++
  (if include_old_header then
    "4\n" ++
    ";\n" ++
    "Including original cif header is not implemented yet.\n" ++
    ";\n"
   else "") ++
  "#\n" ++
  "loop_\n" ++
  "_atom_site.group_PDB\n" ++
  "_atom_site.id\n" ++
  "_atom_site.label_atom_id\n" ++
  "_atom_site.label_comp_id\n" ++
  "_atom_site.label_seq_id\n" ++
  "_atom_site.Cartn_x\n" ++
  "_atom_site.Cartn_y\n" ++
  "_atom_site.Cartn_z\n" ++
  "_atom_site.pqr_partial_charge\n" ++
  "_atom_site.pqr_radius\n"

/-- `print_pqr_header` (`run.py` 123-180): the legacy fixed-prefix
header builder, transcribed line by line. -/
def print_pqr_header (pdblist : List Record) (atomlist : List Atom)
    (reslist : List Residue) (charge : ℚ) (force_field : Option String)
    (ph_calc_method : Option String) (ph : ℚ) (ffout : Option String)
    (include_old_header : Bool) : String :=
  let ff := match force_field with
    | none => "User force field"
    | some f => f.toUpper
  "REMARK   1 PQR file generated by PDB2PQR (Version " ++ versionString ++ ")\n" ++
  "REMARK   1\n" ++
  "REMARK   1 Forcefield Used: " ++ ff ++ "\n" ++
  (match ffout with
   | some s => "REMARK   1 Naming Scheme Used: " ++ s ++ "\n"
   | none => "") ++
  "REMARK   1\n" ++
  (match ph_calc_method with
   | some m => "REMARK   1 pKas calculated by " ++ m ++
       " and assigned using pH " ++ formatFixed 2 ph ++ "\n" ++
       "REMARK   1\n"
   | none => "") ++
  (if atomlist.length ≠ 0 then
    "REMARK   5 WARNING: PDB2PQR was unable to assign charges\n" ++
    "REMARK   5          to the following atoms (omitted below):\n" ++
    String.join (atomlist.map remarkAtomLine) ++
    "REMARK   5 This is usually due to the fact that this residue is not\n" ++
    "REMARK   5 an amino acid or nucleic acid; or, there are no parameters\n" ++
    "REMARK   5 available for the specific protonation state of this\n" ++
    "REMARK   5 residue in the selected forcefield.\n" ++
    "REMARK   5\n"
   else "") ++
  (if reslist.length ≠ 0 then
    "REMARK   5 WARNING: Non-integral net charges were found in\n" ++
    "REMARK   5          the following residues:\n" ++
    String.join (reslist.map fun residue =>
      "REMARK   5              " ++ residue.render ++ " - Residue Charge: " ++
        formatFixed 4 residue.get_charge ++ "\n") ++
    "REMARK   5\n"
   else "") ++
  "REMARK   6 Total charge on this protein: " ++ formatFixed 4 charge ++ " e\n" ++
  "REMARK   6\n" ++
  (if include_old_header then
    "REMARK   7 Original PDB header follows\n" ++
    "REMARK   7\n" ++
    get_old_header pdblist
   else "")

/-- The recognized pipeline options (`PipelineOptions`), as read by
`run_pdb2pqr`.  Optional string options are `Option String` (Python
`None` = `none`); `pka_method` is `none`, `some "propka"` or
`some "pdb2pka"`. -/
structure Options where
  output_pqr : String
  pka_method : Option String
  ph : ℚ
  drop_water : Bool
  ligand : Option String
  neutraln : Bool
  neutralc : Bool
  clean : Bool
  userff : Option String
  ff : Option String
  ffout : Option String
  usernames : Option String
  assign_only : Bool
  debump : Bool
  opt : Bool
  typemap : Bool
  chain : Bool
  is_cif : Bool
  include_header : Bool
  active_extensions : List String

/-- The externally observable stage events of a run, in execution
order.  Log-only diagnostics (multi-occupancy warnings, timing) are not
traced. -/
inductive Event where
  | removePropkaFile (name : String)
  | setTermini
  | updateBonds
  | ignoreExtension (name : String)
  | findMissingHeavy
  | updateSSBridges
  | debump
  | addHydrogens
  | optimizeHydrogens
  | hydrogenCleanup
  | applyPatchHIP
  | setStates
  | buildForcefield
  | applyForceField
  | ligandReconciliation
  | createTypemap
  | applyNameScheme
  | extUnavailable (name : String)
deriving DecidableEq, Repr

/-- The ways a run aborts: the explicit `NotImplementedError` raises of
the pKa stage, and Python's `UnboundLocalError` for a read of a local
variable that was never assigned. -/
inductive RunErr where
  | notImplemented (msg : String)
  | unboundLocal (name : String)
deriving DecidableEq, Repr

/-- The result bundle returned by `run_pdb2pqr`. -/
structure RunResult where
  header : String
  lines : List String
  missed_ligands : Option (List String)
  protein : Protein
deriving DecidableEq, Repr

/-- Modelled from the spec: the external collaborators invoked by the
pipeline, as oracle functions.  Structure-mutating stages are functions
on the structure; `applyForceField` produces the hit and miss lists;
`ligProps` is the ligand parameterizer's per-atom-name parameter lookup
(`ligand.ligand_props`); `renderAtomLine` renders one atom line under a
chain-id mode.  All are synchronous and side-effect-free apart from
their returned values. -/
structure Env where
  propkaFileExists : Bool
  buildProtein : List Record → Protein
  ligInit : String → List Record → Protein
  ligProps : String → ℚ × ℚ
  setTermini : Bool → Bool → Protein → Protein
  updateBonds : Protein → Protein
  findMissingHeavy : Protein → Protein
  updateSSBridges : Protein → Protein
  debumpProtein : Protein → Protein
  addHydrogens : Protein → Protein
  optimizeFull : Protein → Protein
  optimizeWat : Protein → Protein
  hydrogenCleanup : Protein → Protein
  applyPatchHIP : Protein → Protein
  setStates : Protein → Protein
  applyForceField : Protein → List Atom × List Atom
  applyNameScheme : Protein → Protein
  renderAtomLine : Bool → Atom → String

/-- Modelled from the spec: water residue names
(`aa.WAT.water_residue_names`). -/
def waterResidueNames : List String :=
  ["HOH", "WAT"]

/-- Modelled from the spec: `utilities.getPQRBaseFileName` strips the
output-file extension; the exact transformation is irrelevant here, so
it is the identity. -/
def getPQRBaseFileName (s : String) : String :=
  s

/-- Modelled from the spec: `protein.print_atoms(atoms, chain)` renders
exactly one line per given atom (in order), under the requested chain-id
mode. -/
def printAtoms (env : Env) (chainMode : Bool) (atoms : List Atom) : List String :=
  atoms.map (env.renderAtomLine chainMode)

/-- Modelled from the spec: `protein.get_charge()` returns the list of
residues whose net charge is non-integral (same 0.001 tolerance as the
ligand check) together with the total structure charge. -/
def getProteinCharge (p : Protein) : List Residue × ℚ :=
  (p.residues.filter fun r =>
     ¬ |r.get_charge - (truncQ r.get_charge : ℚ)| ≤ (1 : ℚ)/1000,
   (p.residues.map Residue.get_charge).sum)

/-- The tail of `run_pdb2pqr` from `set_states` onward
(`run.py` 328-421): protonation-state commit, force-field construction
(reading the local `force_field`, which raises `UnboundLocalError` when
it was never assigned), parameterization, ligand reconciliation and
miss-list cleanup, typemap, charge derivation, naming scheme, header
synthesis, atom-line rendering, missed-ligand-name derivation and the
extension pass. -/
def run_tail (env : Env) (opts : Options) (pdblist1 : List Record)
    (ffOpt : Option String) (p : Protein) (ev : List Event) :
    List Event × Except RunErr RunResult :=
  let p4 := env.setStates p
  let ev4 := ev ++ [Event.setStates]
  match ffOpt with
  | none => (ev4, Except.error (RunErr.unboundLocal "force_field"))
  | some force_field =>
    let ev5 := ev4 ++ [Event.buildForcefield]
    let hm := env.applyForceField p4
    let ev6 := ev5 ++ [Event.applyForceField]
    let st0 : RState :=
      { protein := p4, hitlist := hm.1, misslist := hm.2,
        ligsuccess := false, warnings := [] }
    let stR := if opts.ligand.isSome then reconcileLigands env.ligProps st0 else st0
    let st1 := missCleanup stR
    let ev7 := ev6 ++ (if opts.ligand.isSome then [Event.ligandReconciliation] else [])
    let ev8 := ev7 ++ (if opts.typemap then [Event.createTypemap] else [])
    let rc := getProteinCharge st1.protein
    let pFinal := if opts.ffout.isSome then env.applyNameScheme st1.protein else st1.protein
    let ev9 := ev8 ++ (if opts.ffout.isSome then [Event.applyNameScheme] else [])
    let header :=
      if opts.is_cif then
        print_pqr_header_cif st1.misslist rc.1 rc.2 (some force_field)
          opts.pka_method opts.ph opts.ffout opts.include_header
      else
        print_pqr_header pdblist1 st1.misslist rc.1 rc.2 (some force_field)
          opts.pka_method opts.ph opts.ffout opts.include_header
    let lines := printAtoms env opts.chain st1.hitlist
    let missed := missedLigandResidues st1.misslist
    (ev9 ++ opts.active_extensions.map Event.extUnavailable,
     Except.ok { header := header, lines := lines,
                 missed_ligands := some missed, protein := pFinal })

/-- The middle of `run_pdb2pqr` after the clean-mode short circuit
(`run.py` 278-326): force-field name resolution (the local `force_field`
stays unassigned when both options are absent), then either the full
preparation branch — heavy-atom completion (skipped for ligand-only
input), disulfide bridges, optional debump, the unsupported pKa-method
raises, hydrogen placement and optimization, cleanup — or the
assign-only branch forcing the doubly protonated histidine patch. -/
def run_main (env : Env) (opts : Options) (pdblist1 : List Record)
    (p2 : Protein) (atomcount : Nat) (ligandPresent : Bool) (ev1 : List Event) :
    List Event × Except RunErr RunResult :=
  let ffOpt : Option String :=
    match opts.userff with
    | some u => some u.toLower
    | none =>
      match opts.ff with
      | some f => some f.toLower
      | none => none
  if opts.assign_only then
    let p3 := env.applyPatchHIP p2
    run_tail env opts pdblist1 ffOpt p3 (ev1 ++ [Event.applyPatchHIP])
  else
    let ha := if atomcount = 0 ∧ ligandPresent then (p2, ([] : List Event))
              else (env.findMissingHeavy p2, [Event.findMissingHeavy])
    let pb := env.updateSSBridges ha.1
    let evb := ha.2 ++ [Event.updateSSBridges]
    let dc := if opts.debump then (env.debumpProtein pb, evb ++ [Event.debump])
              else (pb, evb)
    if opts.pka_method = some "propka" ∨ opts.pka_method = some "pdb2pka" then
      (ev1 ++ dc.2, Except.error (RunErr.notImplemented "PROPKA is broken."))
    else
      let pd := env.addHydrogens dc.1
      let evd := dc.2 ++ [Event.addHydrogens]
      let de := if opts.debump then (env.debumpProtein pd, evd ++ [Event.debump])
                else (pd, evd)
      let pf := if opts.opt then env.optimizeFull de.1 else env.optimizeWat de.1
      let evf := de.2 ++ [Event.optimizeHydrogens]
      let pg := env.hydrogenCleanup pf
      run_tail env opts pdblist1 ffOpt pg (ev1 ++ evf ++ [Event.hydrogenCleanup])

/-- `run_pdb2pqr` (`run.py` 183-421): stale-`.propka`-file removal,
water filtering, structure construction (with or without a ligand
context), ATOM-record counting for the ligand path, the log-only
multi-occupancy scan, termini and bond setup, and the clean-mode short
circuit; otherwise continue with `run_main`.  Returns the stage-event
trace together with either the result bundle or the propagated error. -/
def run_pdb2pqr (env : Env) (opts : Options) (pdblist : List Record) :
    List Event × Except RunErr RunResult :=
  let outroot := getPQRBaseFileName opts.output_pqr
  let ev0 : List Event :=
    if opts.pka_method = some "propka" ∧ env.propkaFileExists then
      [Event.removePropkaFile (outroot ++ ".propka")]
    else []
  let pdblist1 :=
    if opts.drop_water then
      pdblist.filter fun pr =>
        ¬ (pr.kind = RecKind.coordKind ∧ pr.resName ∈ waterResidueNames)
    else pdblist
  let pl := match opts.ligand with
    | some ligFile => (env.ligInit ligFile pdblist1, true)
    | none => (env.buildProtein pdblist1, false)
  let atomcount :=
    if pl.2 then (pl.1.get_atoms.filter fun a => a.typ = "ATOM").length else 0
  let p1 := env.setTermini opts.neutraln opts.neutralc pl.1
  let p2 := env.updateBonds p1
  let ev1 := ev0 ++ [Event.setTermini, Event.updateBonds]
  if opts.clean then
    (ev1 ++ opts.active_extensions.map Event.ignoreExtension,
     Except.ok { header := ""
                 lines := printAtoms env opts.chain p2.get_atoms
                 missed_ligands := none
                 protein := p2 })
  else
    run_main env opts pdblist1 p2 atomcount pl.2 ev1

/-- Events that belong to the parameterization stage or to stages that
only run in the full pipeline after it. -/
def isParamEvent : Event → Bool
  | Event.buildForcefield => true
  | Event.applyForceField => true
  | Event.ligandReconciliation => true
  | Event.createTypemap => true
  | Event.applyNameScheme => true
  | _ => false

/-- Discriminator for a successful run outcome. -/
def isOkRun : Except RunErr RunResult → Bool
  | Except.ok _ => true
  | Except.error _ => false

/-- A sample ligand atom (identity 1). -/
def atomL1 : Atom :=
  { aid := 1, serial := 1, name := "C1", altLoc := "", typ := "HETATM",
    resName := "LIG", resSeq := 1, resKind := ResKind.ligand,
    ffcharge := 0, radius := 0 }

/-- A sample water atom (identity 2). -/
def atomW1 : Atom :=
  { aid := 2, serial := 2, name := "O", altLoc := "", typ := "HETATM",
    resName := "HOH", resSeq := 2, resKind := ResKind.water,
    ffcharge := 0, radius := 0 }

/-- A sample amino-acid atom (identity 3). -/
def atomA1 : Atom :=
  { aid := 3, serial := 3, name := "CA", altLoc := "", typ := "ATOM",
    resName := "ALA", resSeq := 3, resKind := ResKind.amino,
    ffcharge := 0, radius := 0 }

/-- A sample ligand residue holding `atomL1`. -/
def resL : Residue :=
  { rid := 1, name := "LIG", chainId := "A", resSeq := 1,
    kind := ResKind.ligand, isHis := false, atoms := [atomL1] }

/-- A sample water residue holding `atomW1`. -/
def resW : Residue :=
  { rid := 2, name := "HOH", chainId := "A", resSeq := 2,
    kind := ResKind.water, isHis := false, atoms := [atomW1] }

/-- A sample amino-acid residue holding `atomA1`. -/
def resA : Residue :=
  { rid := 3, name := "ALA", chainId := "A", resSeq := 3,
    kind := ResKind.amino, isHis := false, atoms := [atomA1] }

/-- A sample structure with one chain holding a ligand, a water and an
amino-acid residue. -/
def sampleProtein : Protein :=
  { chains := [{ residues := [resL, resW, resA] }],
    residues := [resL, resW, resA] }

/-- A ligand parameterizer whose charges sum to 1.999 on `resL`: within
0.001 of the nearest integer 2, but 0.999 away from the Python
truncation `int(1.999) = 1`. -/
def ligBad : String → ℚ × ℚ :=
  fun _ => (1999/1000, 1)

/-- A ligand parameterizer whose charges sum to the integer 1 on
`resL`. -/
def ligGood : String → ℚ × ℚ :=
  fun _ => (1, 1)

/-- A reconciliation state in which all three sample atoms missed
parameterization. -/
def stAllMiss : RState :=
  { protein := sampleProtein, hitlist := [],
    misslist := [atomL1, atomW1, atomA1], ligsuccess := false,
    warnings := [] }

/-- A reconciliation state in which the ligand atom was (exceptionally)
a parameterization hit. -/
def stLigHit : RState :=
  { protein := sampleProtein, hitlist := [atomL1],
    misslist := [atomW1, atomA1], ligsuccess := false, warnings := [] }

/-- A sample collaborator environment: stage oracles are identities, the
structure is `sampleProtein`, parameterization misses every atom, and
the ligand parameterizer assigns integral charges. -/
def sampleEnv : Env :=
  { propkaFileExists := false
    buildProtein := fun _ => sampleProtein
    ligInit := fun _ _ => sampleProtein
    ligProps := ligGood
    setTermini := fun _ _ p => p
    updateBonds := fun p => p
    findMissingHeavy := fun p => p
    updateSSBridges := fun p => p
    debumpProtein := fun p => p
    addHydrogens := fun p => p
    optimizeFull := fun p => p
    optimizeWat := fun p => p
    hydrogenCleanup := fun p => p
    applyPatchHIP := fun p => p
    setStates := fun p => p
    applyForceField := fun p => ([], p.get_atoms)
    applyNameScheme := fun p => p
    renderAtomLine := fun _ a => a.name }

/-- `sampleEnv` with a stale `.propka` diagnostic file present. -/
def sampleEnvPropka : Env :=
  { sampleEnv with propkaFileExists := true }

/-- A baseline option set: full pipeline, named force field, no pKa
method, no ligand. -/
def sampleOpts : Options :=
  { output_pqr := "out.pqr", pka_method := none, ph := 7,
    drop_water := false, ligand := none, neutraln := false,
    neutralc := false, clean := false, userff := none,
    ff := some "AMBER", ffout := none, usernames := none,
    assign_only := false, debump := true, opt := true, typemap := false,
    chain := false, is_cif := false, include_header := false,
    active_extensions := [] }

/-- A sample record list (empty: the sample environment ignores it). -/
def samplePdb : List Record :=
  []

deriving instance DecidableEq for Except

/-- Unfolding of `ligStep` on a ligand residue that fails the
integral-charge test. -/
theorem ligStep_fail (lig : String → ℚ × ℚ) (s : RState) (r : Residue)
    (hk : r.kind = ResKind.ligand)
    (hgate : (1 : ℚ)/1000 <
      |(updateRes lig r).get_charge - (truncQ (updateRes lig r).get_charge : ℚ)|) :
    ligStep lig s r =
      { protein := removeRes (replaceRes s.protein (updateRes lig r)) (updateRes lig r)
        hitlist := s.hitlist
        misslist := (popAtoms (updateRes lig r).get_atoms s.misslist).1
        ligsuccess := s.ligsuccess
        warnings := s.warnings ++ [ligandDropWarning] } := by
  simp only [ligStep, hk, if_true, if_pos hgate, reduceIte]

/-- Unfolding of `ligStep` on a ligand residue that passes the
integral-charge test. -/
theorem ligStep_pass (lig : String → ℚ × ℚ) (s : RState) (r : Residue)
    (hk : r.kind = ResKind.ligand)
    (hgate : |(updateRes lig r).get_charge - (truncQ (updateRes lig r).get_charge : ℚ)| ≤
      (1 : ℚ)/1000) :
    ligStep lig s r =
      { protein := replaceRes s.protein (updateRes lig r)
        hitlist := s.hitlist ++ (popAtoms (updateRes lig r).get_atoms s.misslist).2
        misslist := (popAtoms (updateRes lig r).get_atoms s.misslist).1
        ligsuccess := true
        warnings := s.warnings } := by
  simp only [ligStep, hk, if_true, if_neg (not_lt.mpr hgate), reduceIte]

/-- Unfolding of `ligStep` on a non-ligand residue. -/
theorem ligStep_nonlig (lig : String → ℚ × ℚ) (s : RState) (r : Residue)
    (hk : r.kind ≠ ResKind.ligand) :
    ligStep lig s r = s := by
  simp only [ligStep, hk, if_false, reduceIte]

/-- C8: the two header formatters are deterministic: for any fixed
inputs (miss-list, non-integral residue list, total charge, force-field
name, pKa method, pH, naming scheme, include-original-header flag, and
for the legacy formatter the record list), repeated applications produce
byte-identical strings.  Both embedded formatters are pure functions of
these arguments — the Python bodies read no mutable global state — so
determinism is definitional. -/
theorem header_determinism (pdblist : List Record) (atomlist : List Atom)
    (reslist : List Residue) (charge : ℚ) (force_field : Option String)
    (ph_calc_method : Option String) (ph : ℚ) (ffout : Option String)
    (include_old_header : Bool) :
    print_pqr_header pdblist atomlist reslist charge force_field
        ph_calc_method ph ffout include_old_header =
      print_pqr_header pdblist atomlist reslist charge force_field
        ph_calc_method ph ffout include_old_header ∧
    print_pqr_header_cif atomlist reslist charge force_field
        ph_calc_method ph ffout include_old_header =
      print_pqr_header_cif atomlist reslist charge force_field
        ph_calc_method ph ffout include_old_header :=
  ⟨rfl, rfl⟩

/-- Fold fusion between the source's missed-ligand loop and the
filter/map/dedup description. -/
theorem missedFold_eq (l : List Atom) : ∀ acc : List String,
    l.foldl
      (fun acc a =>
        if isBiopolymer a then acc
        else if a.resName ∈ acc then acc
        else acc ++ [a.resName]) acc
      = ((l.filter fun a => !isBiopolymer a).map Atom.resName).foldl
          (fun acc n => if n ∈ acc then acc else acc ++ [n]) acc := by
  induction l with
  | nil => intro acc; rfl
  | cons a l ih =>
    intro acc
    by_cases h : isBiopolymer a
    · simp only [List.foldl_cons, h, if_true, List.filter_cons, Bool.not_true,
        Bool.false_eq_true, reduceIte]
      exact ih acc
    · simp only [List.foldl_cons, h, Bool.false_eq_true, if_false,
        List.filter_cons, Bool.not_false, reduceIte, List.map_cons]
      exact ih _

/-- C6: the returned missed-ligand-name list is derived from the final
miss-list as the residue names of atoms whose residue is neither a
standard amino acid nor a standard nucleic acid, with duplicates removed
and names kept in first-appearance order. -/
theorem missed_ligand_names_spec (miss : List Atom) :
    missedLigandResidues miss = specMissedLigandNames miss := by
  unfold missedLigandResidues specMissedLigandNames firstSeenDedup
  exact missedFold_eq miss []

/-- C4: with clean mode requested, the run returns immediately after
termini/bond setup with an empty header, `missed_ligands = none`, and
exactly one rendered atom line per atom of the returned structure; no
parameterization-stage event appears in the trace. -/
theorem clean_short_circuit (env : Env) (opts : Options) (pdblist : List Record)
    (h : opts.clean = true) :
    ∃ r : RunResult,
      (run_pdb2pqr env opts pdblist).2 = Except.ok r ∧
      r.header = "" ∧
      r.missed_ligands = none ∧
      r.lines.length = r.protein.get_atoms.length ∧
      ∀ e ∈ (run_pdb2pqr env opts pdblist).1, isParamEvent e = false := by
  simp only [run_pdb2pqr, h, if_true, reduceIte]
  refine ⟨_, rfl, rfl, rfl, ?_, ?_⟩
  · simp [printAtoms]
  · intro e he
    simp only [List.mem_append, List.mem_cons, List.mem_singleton,
      List.mem_map, List.not_mem_nil, or_false] at he
    rcases he with (h1 | h2 | h3) | ⟨x, _, rfl⟩
    · revert h1
      split
      · intro h1
        simp only [List.mem_singleton] at h1
        subst h1
        rfl
      · intro h1
        exact absurd h1 (List.not_mem_nil e)
    · subst h2; rfl
    · subst h3; rfl
    · rfl

/-- C4 witness: a concrete clean-mode run. -/
theorem clean_short_circuit_witness :
    ∃ r : RunResult,
      (run_pdb2pqr sampleEnv { sampleOpts with clean := true } samplePdb).2 = Except.ok r ∧
      r.header = "" ∧
      r.missed_ligands = none ∧
      r.lines.length = r.protein.get_atoms.length ∧
      ∀ e ∈ (run_pdb2pqr sampleEnv { sampleOpts with clean := true } samplePdb).1,
        isParamEvent e = false :=
  clean_short_circuit sampleEnv { sampleOpts with clean := true } samplePdb rfl

/-- With the local `force_field` never assigned, reaching the
parameter-source construction aborts with the unbound-variable error. -/
theorem run_tail_unbound (env : Env) (opts : Options) (pdblist1 : List Record)
    (p : Protein) (ev : List Event) :
    (run_tail env opts pdblist1 none p ev).2 =
      Except.error (RunErr.unboundLocal "force_field") := by
  simp [run_tail]

/-- C3 (amended): with clean mode and assign-only both off, selecting
pKa method propka or pdb2pka raises `NotImplementedError`, which
propagates to the caller; the abort happens before hydrogen addition and
before parameterization, but only after the disulfide-bridge update
stage (and the heavy-atom completion and first debump pass preceding
it) has executed. -/
theorem pka_method_fatal (env : Env) (opts : Options) (pdblist : List Record)
    (h1 : opts.clean = false) (h2 : opts.assign_only = false)
    (h3 : opts.pka_method = some "propka" ∨ opts.pka_method = some "pdb2pka") :
    (run_pdb2pqr env opts pdblist).2 =
      Except.error (RunErr.notImplemented "PROPKA is broken.") ∧
    Event.updateSSBridges ∈ (run_pdb2pqr env opts pdblist).1 ∧
    Event.addHydrogens ∉ (run_pdb2pqr env opts pdblist).1 ∧
    Event.buildForcefield ∉ (run_pdb2pqr env opts pdblist).1 ∧
    Event.applyForceField ∉ (run_pdb2pqr env opts pdblist).1 := by
  simp only [run_pdb2pqr, run_main, h1, h2, Bool.false_eq_true, if_false,
    reduceIte, if_pos h3]
  refine ⟨by simp, ?_, ?_, ?_, ?_⟩ <;> split_ifs <;>
    simp [List.mem_append, List.mem_cons]

/-- C3 witness: a concrete run with propka selected, clean and
assign-only off. -/
theorem pka_method_fatal_witness :
    (run_pdb2pqr sampleEnv { sampleOpts with pka_method := some "propka" }
        samplePdb).2 =
      Except.error (RunErr.notImplemented "PROPKA is broken.") ∧
    Event.updateSSBridges ∈
      (run_pdb2pqr sampleEnv { sampleOpts with pka_method := some "propka" }
        samplePdb).1 ∧
    Event.addHydrogens ∉
      (run_pdb2pqr sampleEnv { sampleOpts with pka_method := some "propka" }
        samplePdb).1 ∧
    Event.buildForcefield ∉
      (run_pdb2pqr sampleEnv { sampleOpts with pka_method := some "propka" }
        samplePdb).1 ∧
    Event.applyForceField ∉
      (run_pdb2pqr sampleEnv { sampleOpts with pka_method := some "propka" }
        samplePdb).1 :=
  pka_method_fatal sampleEnv { sampleOpts with pka_method := some "propka" }
    samplePdb rfl rfl (Or.inl rfl)

/-- C3 counterexample: the claim as stated fails on the code in two
ways.  With propka selected but assign-only on, the run completes
without any fatal configuration error; and with assign-only off the
disulfide-bridge update event (hence also the preceding heavy-atom
completion and debump stages) is already in the trace when the error is
raised, so the abort does not precede those structural stages. -/
theorem pka_method_fatal_cex :
    isOkRun (run_pdb2pqr sampleEnv
        { sampleOpts with pka_method := some "propka", assign_only := true }
        samplePdb).2 = true ∧
    Event.updateSSBridges ∈
      (run_pdb2pqr sampleEnv { sampleOpts with pka_method := some "propka" }
        samplePdb).1 ∧
    Event.findMissingHeavy ∈
      (run_pdb2pqr sampleEnv { sampleOpts with pka_method := some "propka" }
        samplePdb).1 ∧
    Event.debump ∈
      (run_pdb2pqr sampleEnv { sampleOpts with pka_method := some "propka" }
        samplePdb).1 ∧
    (run_pdb2pqr sampleEnv { sampleOpts with pka_method := some "propka" }
        samplePdb).2 =
      Except.error (RunErr.notImplemented "PROPKA is broken.") := by
  refine ⟨by decide, ?_, ?_, ?_, by decide⟩ <;> decide

/-- C9 (amended): with clean mode off and both force-field options
absent, any run that reaches the parameter-source construction (that is,
any run with assign-only on, or with a pKa method other than propka and
pdb2pka) reads the never-assigned local `force_field` and aborts with
the unbound-variable error rather than a clean configuration error;
hence reaching parameterization requires one of the two options. -/
theorem unbound_force_field (env : Env) (opts : Options) (pdblist : List Record)
    (h1 : opts.clean = false) (h2 : opts.userff = none) (h3 : opts.ff = none)
    (h4 : opts.assign_only = true ∨
      ¬(opts.pka_method = some "propka" ∨ opts.pka_method = some "pdb2pka")) :
    (run_pdb2pqr env opts pdblist).2 =
      Except.error (RunErr.unboundLocal "force_field") := by
  simp only [run_pdb2pqr, run_main, h1, h2, h3, Bool.false_eq_true, if_false,
    reduceIte]
  by_cases ha : opts.assign_only = true
  · simp only [ha, if_true, reduceIte]
    exact run_tail_unbound env opts _ _ _
  · have hp : ¬(opts.pka_method = some "propka" ∨ opts.pka_method = some "pdb2pka") :=
      h4.resolve_left ha
    simp only [Bool.not_eq_true] at ha
    simp only [ha, Bool.false_eq_true, if_false, reduceIte, if_neg hp]
    split_ifs <;> exact run_tail_unbound env opts _ _ _

/-- C9 witness: a concrete run with both force-field options absent and
no pKa method. -/
theorem unbound_force_field_witness :
    (run_pdb2pqr sampleEnv { sampleOpts with userff := none, ff := none }
        samplePdb).2 =
      Except.error (RunErr.unboundLocal "force_field") :=
  unbound_force_field sampleEnv { sampleOpts with userff := none, ff := none }
    samplePdb rfl rfl rfl (Or.inr (by decide))

/-- C9 counterexample: the claim as stated fails when propka is selected
with assign-only off — the run aborts with the `NotImplementedError` of
the pKa stage, before the unbound `force_field` read is ever reached. -/
theorem unbound_force_field_cex :
    (run_pdb2pqr sampleEnv
        { sampleOpts with userff := none, ff := none, pka_method := some "propka" }
        samplePdb).2 =
      Except.error (RunErr.notImplemented "PROPKA is broken.") := by
  decide

/-- C10: with clean mode on, the run returns its result bundle before
the pKa-strategy check is reached: it completes normally for every pKa
method (propka and pdb2pka included), and the only propka-specific
effect is the upfront removal of a stale `.propka` diagnostic file,
which happens exactly when propka is selected and such a file exists. -/
theorem clean_mode_no_pka_error (env : Env) (opts : Options)
    (pdblist : List Record) (h : opts.clean = true) :
    isOkRun (run_pdb2pqr env opts pdblist).2 = true ∧
    ((∃ n, Event.removePropkaFile n ∈ (run_pdb2pqr env opts pdblist).1) ↔
      (opts.pka_method = some "propka" ∧ env.propkaFileExists = true)) := by
  simp only [run_pdb2pqr, h, if_true, reduceIte]
  refine ⟨rfl, ?_⟩
  by_cases hc : opts.pka_method = some "propka" ∧ env.propkaFileExists = true
  · simp only [hc, and_self, iff_true, if_pos hc]
    exact ⟨getPQRBaseFileName opts.output_pqr ++ ".propka", by simp⟩
  · simp only [hc, iff_false, if_neg hc, List.nil_append, not_exists]
    intro n hn
    simp only [List.mem_append, List.mem_cons, List.mem_singleton,
      List.mem_map, List.not_mem_nil, or_false] at hn
    rcases hn with (h1 | h2) | ⟨x, _, hx⟩
    · exact absurd h1 (by simp)
    · exact absurd h2 (by simp)
    · exact absurd hx (by simp)

/-- C10 witness: a concrete clean-mode run with propka selected and a
stale diagnostic file present. -/
theorem clean_mode_no_pka_error_witness :
    isOkRun (run_pdb2pqr sampleEnvPropka
        { sampleOpts with clean := true, pka_method := some "propka" }
        samplePdb).2 = true ∧
    ((∃ n, Event.removePropkaFile n ∈
        (run_pdb2pqr sampleEnvPropka
          { sampleOpts with clean := true, pka_method := some "propka" }
          samplePdb).1) ↔
      (({ sampleOpts with clean := true, pka_method := some "propka" } : Options).pka_method =
          some "propka" ∧ sampleEnvPropka.propkaFileExists = true)) :=
  clean_mode_no_pka_error sampleEnvPropka
    { sampleOpts with clean := true, pka_method := some "propka" } samplePdb rfl

/-- Identity lookup succeeds exactly when some atom of the list bears
the id. -/
theorem aidIn_iff {l : List Atom} {x : Nat} :
    aidIn l x = true ↔ ∃ a ∈ l, a.aid = x := by
  induction l with
  | nil => simp [aidIn]
  | cons a rest ih =>
    by_cases h : a.aid = x
    · simp [aidIn, h]
    · simp [aidIn, h, ih]

/-- Identity lookup fails exactly when no atom of the list bears the
id. -/
theorem aidIn_false_iff {l : List Atom} {x : Nat} :
    aidIn l x = false ↔ ∀ a ∈ l, a.aid ≠ x := by
  rw [← Bool.not_eq_true, aidIn_iff]
  simp

/-- Removing one identity yields a sublist. -/
theorem eraseAid_sublist (x : Nat) : ∀ l : List Atom,
    List.Sublist (eraseAid l x) l := by
  intro l
  induction l with
  | nil => exact List.Sublist.refl _
  | cons a rest ih =>
    by_cases h : a.aid = x
    · simp only [eraseAid, h, if_true, reduceIte]
      exact List.sublist_cons_self a rest
    · simp only [eraseAid, h, if_false, reduceIte]
      exact ih.cons₂ a

/-- Looking up a different identity is unaffected by an erase. -/
theorem aidIn_eraseAid_ne {y x : Nat} (hne : y ≠ x) : ∀ l : List Atom,
    aidIn (eraseAid l x) y = aidIn l y := by
  intro l
  induction l with
  | nil => rfl
  | cons a rest ih =>
    by_cases h : a.aid = x
    · have hxy : ¬(x = y) := fun hxy => hne hxy.symm
      simp [eraseAid, aidIn, h, hxy]
    · simp [eraseAid, aidIn, h, ih]

/-- With distinct identities, erasing an identity is filtering it
out. -/
theorem eraseAid_eq_filter : ∀ {l : List Atom}, (l.map Atom.aid).Nodup →
    ∀ x : Nat, eraseAid l x = l.filter fun a => a.aid != x := by
  intro l
  induction l with
  | nil => intro _ x; rfl
  | cons a rest ih =>
    intro h x
    simp only [List.map_cons, List.nodup_cons] at h
    by_cases hx : a.aid = x
    · have hrest : ∀ b ∈ rest, (b.aid != x) = true := by
        intro b hb
        have hba : b.aid ≠ a.aid := by
          intro he
          exact h.1 (he ▸ List.mem_map_of_mem Atom.aid hb)
        rw [← hx]
        simp [bne_iff_ne, hba]
      have hhead : (a.aid != x) = false := by simp [hx]
      rw [show eraseAid (a :: rest) x = rest by simp [eraseAid, hx],
        List.filter_cons, hhead]
      simp only [Bool.false_eq_true, if_false, reduceIte]
      exact (List.filter_eq_self.mpr hrest).symm
    · have hhead : (a.aid != x) = true := by simp [bne_iff_ne, hx]
      rw [show eraseAid (a :: rest) x = a :: eraseAid rest x by
          simp [eraseAid, hx],
        List.filter_cons, hhead]
      simp only [if_true, reduceIte]
      rw [ih h.2 x]

/-- The miss list after the per-residue pops: with distinct miss-list
identities, exactly the atoms whose identity occurs among the residue's
atoms are removed. -/
theorem popAtoms_fst : ∀ (atoms : List Atom) {miss : List Atom},
    (miss.map Atom.aid).Nodup →
    (popAtoms atoms miss).1 = miss.filter fun m => !(aidIn atoms m.aid) := by
  intro atoms
  induction atoms with
  | nil =>
    intro miss _
    simp [popAtoms, aidIn]
  | cons a rest ih =>
    intro miss h
    by_cases hm : aidIn miss a.aid = true
    · have hsub : ((eraseAid miss a.aid).map Atom.aid).Nodup :=
        h.sublist ((eraseAid_sublist a.aid miss).map Atom.aid)
      simp only [popAtoms, hm, if_true, reduceIte]
      rw [ih hsub, eraseAid_eq_filter h, List.filter_filter]
      apply List.filter_congr
      intro m _
      by_cases hax : a.aid = m.aid
      · simp [aidIn, hax, bne_iff_ne]
      · simp [aidIn, hax, bne_iff_ne, Ne.symm hax]
    · have hm' : aidIn miss a.aid = false := by
        revert hm; cases aidIn miss a.aid <;> simp
      simp only [popAtoms, hm', Bool.false_eq_true, if_false, reduceIte]
      rw [ih h]
      apply List.filter_congr
      intro m hmem
      have : m.aid ≠ a.aid := aidIn_false_iff.mp hm' m hmem
      simp [aidIn, Ne.symm this]

/-- The temporary success list produced by the pops: with distinct
identities on both sides, exactly the residue atoms found in the miss
list, in residue order. -/
theorem popAtoms_snd : ∀ (atoms : List Atom), (atoms.map Atom.aid).Nodup →
    ∀ {miss : List Atom}, (miss.map Atom.aid).Nodup →
    (popAtoms atoms miss).2 = atoms.filter fun a => aidIn miss a.aid := by
  intro atoms
  induction atoms with
  | nil =>
    intro _ miss _
    rfl
  | cons a rest ih =>
    intro ha miss h
    simp only [List.map_cons, List.nodup_cons] at ha
    by_cases hm : aidIn miss a.aid = true
    · have hsub : ((eraseAid miss a.aid).map Atom.aid).Nodup :=
        h.sublist ((eraseAid_sublist a.aid miss).map Atom.aid)
      simp only [popAtoms, hm, if_true, reduceIte, List.filter_cons]
      rw [ih ha.2 hsub]
      congr 1
      apply List.filter_congr
      intro b hb
      have hba : b.aid ≠ a.aid := by
        intro he
        exact ha.1 (he ▸ List.mem_map_of_mem Atom.aid hb)
      exact aidIn_eraseAid_ne hba miss
    · have hm' : aidIn miss a.aid = false := by
        revert hm; cases aidIn miss a.aid <;> simp
      simp only [popAtoms, hm', Bool.false_eq_true, if_false, reduceIte,
        List.filter_cons]
      rw [ih ha.2 h]

/-- After the pops, no identity occurring among the residue's atoms
remains in the miss list (distinct miss-list identities). -/
theorem popAtoms_fst_aid_false {atoms miss : List Atom}
    (h : (miss.map Atom.aid).Nodup) {y : Nat} (hy : aidIn atoms y = true) :
    aidIn (popAtoms atoms miss).1 y = false := by
  rw [popAtoms_fst atoms h, aidIn_false_iff]
  intro m hm hmy
  have h2 := (List.mem_filter.mp hm).2
  rw [hmy, hy] at h2
  simp at h2

/-- When no residue atom is in the miss list, the pops do nothing. -/
theorem popAtoms_none : ∀ (atoms miss : List Atom),
    (∀ a ∈ atoms, aidIn miss a.aid = false) →
    popAtoms atoms miss = (miss, []) := by
  intro atoms
  induction atoms with
  | nil => intro miss _; rfl
  | cons a rest ih =>
    intro miss h
    have ha := h a (List.mem_cons_self a rest)
    simp only [popAtoms, ha, Bool.false_eq_true, if_false, reduceIte]
    exact ih miss fun b hb => h b (List.mem_cons_of_mem a hb)

/-- Filtering for biopolymer atoms is unaffected by erasing a
non-biopolymer atom. -/
theorem filter_erase_nonbio {a : Atom} (ha : isBiopolymer a = false) :
    ∀ acc : List Atom,
      (acc.erase a).filter isBiopolymer = acc.filter isBiopolymer := by
  intro acc
  induction acc with
  | nil => rfl
  | cons c acc ih =>
    rw [List.erase_cons]
    by_cases hc : c = a
    · subst hc
      simp only [beq_self_eq_true, if_true, reduceIte, List.filter_cons, ha,
        Bool.false_eq_true, if_false]
    · have hcb : (c == a) = false := by simp [hc]
      rw [hcb]
      simp only [Bool.false_eq_true, if_false, reduceIte, List.filter_cons, ih]

/-- The cleanup loop over a snapshot list `l`, started from an
accumulator each of whose non-biopolymer members occurs at least as
often in `l`, filters the accumulator down to its biopolymer atoms. -/
theorem cleanupLoop_eq_filter : ∀ (l acc : List Atom),
    (∀ a : Atom, isBiopolymer a = false → acc.count a ≤ l.count a) →
    cleanupLoop l acc = acc.filter isBiopolymer := by
  intro l
  induction l with
  | nil =>
    intro acc h
    have hall : ∀ a ∈ acc, isBiopolymer a = true := by
      intro a ha
      by_contra hb
      have hb' : isBiopolymer a = false := by
        revert hb; cases isBiopolymer a <;> simp
      have hc := h a hb'
      rw [List.count_nil, Nat.le_zero, List.count_eq_zero] at hc
      exact hc ha
    simp [cleanupLoop, List.filter_eq_self.mpr hall]
  | cons b l ih =>
    intro acc h
    by_cases hb : isBiopolymer b = true
    · simp only [cleanupLoop, hb, if_true, reduceIte]
      apply ih
      intro a ha
      have hne : a ≠ b := by
        intro he
        rw [he, hb] at ha
        cases ha
      have := h a ha
      rwa [List.count_cons_of_ne hne] at this
    · have hb' : isBiopolymer b = false := by
        revert hb; cases isBiopolymer b <;> simp
      simp only [cleanupLoop, hb', Bool.false_eq_true, if_false, reduceIte]
      rw [ih (acc.erase b) ?_, filter_erase_nonbio hb']
      intro a ha
      by_cases hab : a = b
      · subst hab
        have := h a ha
        rw [List.count_cons_self] at this
        rw [List.count_erase_self]
        omega
      · rw [List.count_erase_of_ne hab]
        have := h a ha
        rwa [List.count_cons_of_ne hab] at this

/-- The miss-list cleanup is exactly a filter keeping the amino-acid and
nucleic-acid atoms. -/
theorem missCleanupList_eq_filter (miss : List Atom) :
    missCleanupList miss = miss.filter isBiopolymer :=
  cleanupLoop_eq_filter miss miss fun _ _ => le_refl _

/-- The parameter assignment does not change the residue identity. -/
theorem updateRes_rid (lig : String → ℚ × ℚ) (r : Residue) :
    (updateRes lig r).rid = r.rid :=
  rfl

/-- The parameter assignment does not change the residue kind. -/
theorem updateRes_kind (lig : String → ℚ × ℚ) (r : Residue) :
    (updateRes lig r).kind = r.kind :=
  rfl

/-- The parameter assignment does not change the atom identities. -/
theorem updateRes_atoms_aid (lig : String → ℚ × ℚ) (r : Residue) :
    (updateRes lig r).atoms.map Atom.aid = r.atoms.map Atom.aid := by
  simp only [updateRes, List.map_map]
  rfl

/-- In a list of residues with distinct identities, any residue value
occurs at most once. -/
theorem count_le_one_of_rid_nodup : ∀ {l : List Residue},
    (l.map Residue.rid).Nodup → ∀ z : Residue, l.count z ≤ 1 := by
  intro l
  induction l with
  | nil => intro _ z; simp
  | cons a rest ih =>
    intro h z
    simp only [List.map_cons, List.nodup_cons] at h
    by_cases haz : a = z
    · subst haz
      rw [List.count_cons_self]
      have hz : rest.count a = 0 :=
        List.count_eq_zero.mpr fun hmem => h.1 (List.mem_map_of_mem Residue.rid hmem)
      omega
    · rw [List.count_cons_of_ne fun hza => haz hza.symm]
      exact ih h.2 z

/-- The aliasing write-back preserves the identity sequence of a residue
list. -/
theorem map_rid_replace (l : List Residue) (r' : Residue) :
    (l.map fun y => if y.rid = r'.rid then r' else y).map Residue.rid =
      l.map Residue.rid := by
  induction l with
  | nil => rfl
  | cons y rest ih =>
    by_cases h : y.rid = r'.rid
    · simp [h, ih]
    · simp [h, ih]

/-- After writing back a residue and erasing it, no residue with its
identity remains (distinct identities). -/
theorem replace_erase_rid_free (l : List Residue) (r' : Residue)
    (hn : (l.map Residue.rid).Nodup) :
    ∀ x ∈ (l.map fun y => if y.rid = r'.rid then r' else y).erase r',
      x.rid ≠ r'.rid := by
  intro x hx hrid
  have hx' : x ∈ (l.map fun y => if y.rid = r'.rid then r' else y) :=
    List.mem_of_mem_erase hx
  obtain ⟨y, hy, hfy⟩ := List.mem_map.mp hx'
  by_cases hyr : y.rid = r'.rid
  · rw [if_pos hyr] at hfy
    rw [← hfy] at hx
    have hnodup' :
        ((l.map fun y => if y.rid = r'.rid then r' else y).map Residue.rid).Nodup := by
      rw [map_rid_replace]
      exact hn
    have hc1 : (l.map fun y => if y.rid = r'.rid then r' else y).count r' ≤ 1 :=
      count_le_one_of_rid_nodup hnodup' r'
    have hc0 := List.count_erase_self r'
      (l.map fun y => if y.rid = r'.rid then r' else y)
    have hpos : 0 <
        ((l.map fun y => if y.rid = r'.rid then r' else y).erase r').count r' :=
      List.count_pos_iff.mpr hx
    omega
  · rw [if_neg hyr] at hfy
    subst hfy
    exact hyr hrid

/-- C1 (amended): during ligand reconciliation, a ligand residue whose
summed assigned charge is within 0.001 e of its Python `int()`
truncation (toward zero, not the nearest integer) is retained in the
structure and its atoms that were in the miss list are moved into the
hit list; one outside that tolerance is removed from the structure, its
atoms that were in the miss list are removed from it, and no atom is
added to the hit list. -/
theorem ligand_integrality_check (lig : String → ℚ × ℚ) (st : RState)
    (r : Residue) (hk : r.kind = ResKind.ligand)
    (hmem : r ∈ st.protein.residues)
    (hnodup : (st.protein.residues.map Residue.rid).Nodup)
    (hmiss : (st.misslist.map Atom.aid).Nodup)
    (hatoms : ((updateRes lig r).atoms.map Atom.aid).Nodup) :
    (|(updateRes lig r).get_charge - (truncQ (updateRes lig r).get_charge : ℚ)| ≤
        (1 : ℚ)/1000 →
      updateRes lig r ∈ (ligStep lig st r).protein.residues ∧
      ∀ a ∈ (updateRes lig r).get_atoms, aidIn st.misslist a.aid = true →
        a ∈ (ligStep lig st r).hitlist ∧
        aidIn (ligStep lig st r).misslist a.aid = false) ∧
    ((1 : ℚ)/1000 <
        |(updateRes lig r).get_charge - (truncQ (updateRes lig r).get_charge : ℚ)| →
      (∀ x ∈ (ligStep lig st r).protein.residues, x.rid ≠ r.rid) ∧
      (ligStep lig st r).hitlist = st.hitlist ∧
      ∀ a ∈ (updateRes lig r).get_atoms,
        aidIn (ligStep lig st r).misslist a.aid = false) := by
  constructor
  · intro hle
    rw [ligStep_pass lig st r hk hle]
    simp only [Residue.get_atoms, replaceRes]
    constructor
    · have hmm2 := List.mem_map_of_mem
        (fun x => if x.rid = (updateRes lig r).rid then updateRes lig r else x) hmem
      simpa [updateRes_rid] using hmm2
    · intro a ha haid
      constructor
      · apply List.mem_append_right
        rw [popAtoms_snd _ hatoms hmiss]
        exact List.mem_filter.mpr ⟨ha, haid⟩
      · exact popAtoms_fst_aid_false hmiss (aidIn_iff.mpr ⟨a, ha, rfl⟩)
  · intro hlt
    rw [ligStep_fail lig st r hk hlt]
    simp only [Residue.get_atoms]
    refine ⟨?_, by trivial, ?_⟩
    · intro x hx
      rw [show r.rid = (updateRes lig r).rid from (updateRes_rid lig r).symm]
      exact replace_erase_rid_free st.protein.residues (updateRes lig r) hnodup x hx
    · intro a ha
      exact popAtoms_fst_aid_false hmiss (aidIn_iff.mpr ⟨a, ha, rfl⟩)

/-- C1 witness: a concrete passing ligand residue whose miss-list atom
moves to the hit list. -/
theorem ligand_integrality_check_witness :
    (|(updateRes ligGood resL).get_charge -
        (truncQ (updateRes ligGood resL).get_charge : ℚ)| ≤ (1 : ℚ)/1000 →
      updateRes ligGood resL ∈ (ligStep ligGood stAllMiss resL).protein.residues ∧
      ∀ a ∈ (updateRes ligGood resL).get_atoms,
        aidIn stAllMiss.misslist a.aid = true →
        a ∈ (ligStep ligGood stAllMiss resL).hitlist ∧
        aidIn (ligStep ligGood stAllMiss resL).misslist a.aid = false) ∧
    ((1 : ℚ)/1000 <
        |(updateRes ligGood resL).get_charge -
          (truncQ (updateRes ligGood resL).get_charge : ℚ)| →
      (∀ x ∈ (ligStep ligGood stAllMiss resL).protein.residues, x.rid ≠ resL.rid) ∧
      (ligStep ligGood stAllMiss resL).hitlist = stAllMiss.hitlist ∧
      ∀ a ∈ (updateRes ligGood resL).get_atoms,
        aidIn (ligStep ligGood stAllMiss resL).misslist a.aid = false) :=
  ligand_integrality_check ligGood stAllMiss resL rfl (by decide) (by decide)
    (by decide) (by decide)

/-- C1 counterexample: with the ligand parameterizer summing to
1.999 e, the charge is within 0.001 e of the nearest integer 2, yet the
residue is removed from the structure and its miss-list atom ends up in
neither list; moreover an atom of a failed residue that was already in
the hit list stays there. -/
theorem ligand_integrality_check_cex :
    |(updateRes ligBad resL).get_charge -
        ((round (updateRes ligBad resL).get_charge : ℤ) : ℚ)| ≤ (1 : ℚ)/1000 ∧
    resL ∈ stAllMiss.protein.residues ∧
    atomL1 ∈ resL.atoms ∧
    aidIn stAllMiss.misslist atomL1.aid = true ∧
    (∀ x ∈ (ligStep ligBad stAllMiss resL).protein.residues, x.rid ≠ resL.rid) ∧
    aidIn (ligStep ligBad stAllMiss resL).hitlist atomL1.aid = false ∧
    aidIn (ligStep ligBad stAllMiss resL).misslist atomL1.aid = false ∧
    aidIn (ligStep ligBad stLigHit resL).hitlist atomL1.aid = true := by
  have hch : (updateRes ligBad resL).get_charge = 1999/1000 := by
    simp [updateRes, Residue.get_charge, ligBad, resL, atomL1]
  have hgate : (1 : ℚ)/1000 <
      |(updateRes ligBad resL).get_charge -
        (truncQ (updateRes ligBad resL).get_charge : ℚ)| := by
    rw [hch]
    norm_num [truncQ, abs_of_nonneg]
  refine ⟨?_, by decide, by decide, by decide, ?_, ?_, ?_, ?_⟩
  · rw [hch]
    norm_num [round_eq, abs_of_nonneg]
  · rw [ligStep_fail ligBad stAllMiss resL rfl hgate]
    intro x hx
    rw [show resL.rid = (updateRes ligBad resL).rid from rfl]
    exact replace_erase_rid_free stAllMiss.protein.residues (updateRes ligBad resL)
      (by decide) x hx
  · rw [ligStep_fail ligBad stAllMiss resL rfl hgate]
    decide
  · rw [ligStep_fail ligBad stAllMiss resL rfl hgate]
    decide
  · rw [ligStep_fail ligBad stLigHit resL rfl hgate]
    decide

/-- C2 (amended): when a ligand residue fails the net-integral-charge
check, the pipeline removes it from both its chain's residue container
and the structure's residue container and emits a warning; the hit list
is untouched, but the miss list is not: the residue's atoms that were in
the miss list have been removed from it by the reconciliation step (they
are added to neither list). -/
theorem ligand_failure_frame (lig : String → ℚ × ℚ) (st : RState) (r : Residue)
    (hk : r.kind = ResKind.ligand)
    (hnodup : (st.protein.residues.map Residue.rid).Nodup)
    (hchains : ∀ ch ∈ st.protein.chains, (ch.residues.map Residue.rid).Nodup)
    (hmiss : (st.misslist.map Atom.aid).Nodup)
    (hfail : (1 : ℚ)/1000 <
      |(updateRes lig r).get_charge - (truncQ (updateRes lig r).get_charge : ℚ)|) :
    (∀ x ∈ (ligStep lig st r).protein.residues, x.rid ≠ r.rid) ∧
    (∀ ch ∈ (ligStep lig st r).protein.chains, ∀ x ∈ ch.residues, x.rid ≠ r.rid) ∧
    (ligStep lig st r).warnings = st.warnings ++ [ligandDropWarning] ∧
    (ligStep lig st r).hitlist = st.hitlist ∧
    (ligStep lig st r).misslist =
      st.misslist.filter fun m => !(aidIn (updateRes lig r).get_atoms m.aid) := by
  rw [ligStep_fail lig st r hk hfail]
  simp only [Residue.get_atoms, removeRes, replaceRes]
  refine ⟨?_, ?_, by trivial, by trivial, ?_⟩
  · intro x hx
    rw [show r.rid = (updateRes lig r).rid from (updateRes_rid lig r).symm]
    exact replace_erase_rid_free st.protein.residues (updateRes lig r) hnodup x hx
  · intro ch hch x hx
    obtain ⟨ch0, hch0, rfl⟩ := List.mem_map.mp hch
    obtain ⟨ch1, hch1, rfl⟩ := List.mem_map.mp hch0
    rw [show r.rid = (updateRes lig r).rid from (updateRes_rid lig r).symm]
    apply replace_erase_rid_free ch1.residues (updateRes lig r)
      (hchains ch1 hch1) x
    simpa using hx
  · exact popAtoms_fst _ hmiss

/-- C2 witness: a concrete failing ligand with an atom in the miss
list. -/
theorem ligand_failure_frame_witness :
    (∀ x ∈ (ligStep ligBad stAllMiss resL).protein.residues, x.rid ≠ resL.rid) ∧
    (∀ ch ∈ (ligStep ligBad stAllMiss resL).protein.chains,
      ∀ x ∈ ch.residues, x.rid ≠ resL.rid) ∧
    (ligStep ligBad stAllMiss resL).warnings =
      stAllMiss.warnings ++ [ligandDropWarning] ∧
    (ligStep ligBad stAllMiss resL).hitlist = stAllMiss.hitlist ∧
    (ligStep ligBad stAllMiss resL).misslist =
      stAllMiss.misslist.filter
        fun m => !(aidIn (updateRes ligBad resL).get_atoms m.aid) :=
  ligand_failure_frame ligBad stAllMiss resL rfl (by decide) (by decide)
    (by decide)
    (by
      have hch : (updateRes ligBad resL).get_charge = 1999/1000 := by
        simp [updateRes, Residue.get_charge, ligBad, resL, atomL1]
      rw [hch]
      norm_num [truncQ, abs_of_nonneg])

/-- C2 counterexample: for a concrete failing ligand residue whose atom
is in the miss list, the reconciliation step changes the miss list (the
atom is popped out of it before the check and never restored), so the
miss list is not left untouched. -/
theorem ligand_failure_frame_cex :
    resL.kind = ResKind.ligand ∧
    atomL1 ∈ resL.atoms ∧
    aidIn stAllMiss.misslist atomL1.aid = true ∧
    (1 : ℚ)/1000 <
      |(updateRes ligBad resL).get_charge -
        (truncQ (updateRes ligBad resL).get_charge : ℚ)| ∧
    (ligStep ligBad stAllMiss resL).misslist ≠ stAllMiss.misslist ∧
    aidIn (ligStep ligBad stAllMiss resL).misslist atomL1.aid = false := by
  have hch : (updateRes ligBad resL).get_charge = 1999/1000 := by
    simp [updateRes, Residue.get_charge, ligBad, resL, atomL1]
  have hgate : (1 : ℚ)/1000 <
      |(updateRes ligBad resL).get_charge -
        (truncQ (updateRes ligBad resL).get_charge : ℚ)| := by
    rw [hch]
    norm_num [truncQ, abs_of_nonneg]
  refine ⟨rfl, by decide, by decide, hgate, ?_, ?_⟩
  · rw [ligStep_fail ligBad stAllMiss resL rfl hgate]
    decide
  · rw [ligStep_fail ligBad stAllMiss resL rfl hgate]
    decide

/-- C5 (amended): the miss-list cleanup that runs after a successful
ligand parameterization removes from the miss list exactly the atoms
whose residue is neither a standard amino acid nor a standard nucleic
acid — a superset of the ligand-residue atoms that also covers water and
other non-biopolymer residues — and keeps every amino-acid and
nucleic-acid atom; hit list and structure are unchanged. -/
theorem miss_cleanup_scope (s : RState) (h : s.ligsuccess = true) :
    (missCleanup s).misslist = s.misslist.filter isBiopolymer ∧
    (∀ a ∈ s.misslist, isBiopolymer a = false → a ∉ (missCleanup s).misslist) ∧
    (∀ a ∈ s.misslist, isBiopolymer a = true → a ∈ (missCleanup s).misslist) ∧
    (missCleanup s).hitlist = s.hitlist ∧
    (missCleanup s).protein = s.protein := by
  have hm : (missCleanup s).misslist = s.misslist.filter isBiopolymer := by
    simp [missCleanup, h, missCleanupList_eq_filter]
  refine ⟨hm, ?_, ?_, by simp [missCleanup, h], by simp [missCleanup, h]⟩
  · intro a _ hbio hmem
    rw [hm] at hmem
    have := (List.mem_filter.mp hmem).2
    rw [hbio] at this
    cases this
  · intro a hmem hbio
    rw [hm]
    exact List.mem_filter.mpr ⟨hmem, hbio⟩

/-- C5 witness: a concrete cleanup after a successful ligand run. -/
theorem miss_cleanup_scope_witness :
    (missCleanup { stAllMiss with ligsuccess := true }).misslist =
      ({ stAllMiss with ligsuccess := true } : RState).misslist.filter isBiopolymer ∧
    (∀ a ∈ ({ stAllMiss with ligsuccess := true } : RState).misslist,
      isBiopolymer a = false →
        a ∉ (missCleanup { stAllMiss with ligsuccess := true }).misslist) ∧
    (∀ a ∈ ({ stAllMiss with ligsuccess := true } : RState).misslist,
      isBiopolymer a = true →
        a ∈ (missCleanup { stAllMiss with ligsuccess := true }).misslist) ∧
    (missCleanup { stAllMiss with ligsuccess := true }).hitlist =
      ({ stAllMiss with ligsuccess := true } : RState).hitlist ∧
    (missCleanup { stAllMiss with ligsuccess := true }).protein =
      ({ stAllMiss with ligsuccess := true } : RState).protein :=
  miss_cleanup_scope { stAllMiss with ligsuccess := true } rfl

/-- C5 counterexample: after a successful ligand parameterization the
cleanup also removes a water atom from the miss list, although that atom
belongs to no ligand residue — contradicting the claim that every
non-ligand atom is kept. -/
theorem miss_cleanup_scope_cex :
    ({ stAllMiss with ligsuccess := true } : RState).ligsuccess = true ∧
    atomW1 ∈ ({ stAllMiss with ligsuccess := true } : RState).misslist ∧
    atomW1.resKind = ResKind.water ∧
    (∀ r ∈ ({ stAllMiss with ligsuccess := true } : RState).protein.residues,
      r.kind = ResKind.ligand → ∀ a ∈ r.atoms, a.aid ≠ atomW1.aid) ∧
    atomW1 ∉ (missCleanup { stAllMiss with ligsuccess := true }).misslist := by
  decide

/-- An identity absent from a list is absent from any sublist. -/
theorem aidIn_false_of_sublist {l₁ l₂ : List Atom} (hs : List.Sublist l₁ l₂)
    {x : Nat} (h : aidIn l₂ x = false) : aidIn l₁ x = false := by
  by_contra hne
  have h1 : aidIn l₁ x = true := by
    revert hne; cases aidIn l₁ x <;> simp
  obtain ⟨a, ha, hax⟩ := aidIn_iff.mp h1
  have h2 : aidIn l₂ x = true := aidIn_iff.mpr ⟨a, hs.subset ha, hax⟩
  rw [h] at h2
  cases h2

/-- A dealt-with ligand residue stays dealt with when the miss list
shrinks. -/
theorem ligDone_mono {lig : String → ℚ × ℚ} {miss' miss : List Atom}
    {r : Residue} (hs : List.Sublist miss' miss) (h : ligDone lig miss r) :
    ligDone lig miss' r :=
  ⟨h.1, h.2.1, fun a ha => aidIn_false_of_sublist hs (h.2.2 a ha)⟩

/-- Assigning the ligand parameters twice is the same as assigning them
once. -/
theorem updateRes_idem (lig : String → ℚ × ℚ) (r : Residue) :
    updateRes lig (updateRes lig r) = updateRes lig r := by
  simp only [updateRes, List.map_map]
  congr 1

/-- A map that fixes every member of a list is the identity on it. -/
theorem map_id_of_eq {α : Type} (l : List α) (f : α → α)
    (h : ∀ a ∈ l, f a = a) : l.map f = l := by
  induction l with
  | nil => rfl
  | cons a rest ih =>
    rw [List.map_cons, h a (List.mem_cons_self a rest),
      ih fun b hb => h b (List.mem_cons_of_mem a hb)]

/-- Writing back a residue that is already a member of a
distinct-identity list changes nothing. -/
theorem replace_list_self {l : List Residue} {r : Residue}
    (hn : (l.map Residue.rid).Nodup) (hm : r ∈ l) :
    (l.map fun y => if y.rid = r.rid then r else y) = l :=
  map_id_of_eq _ _ fun y hy => by
    by_cases h : y.rid = r.rid
    · rw [if_pos h]
      exact (List.inj_on_of_nodup_map hn hy hm h).symm
    · rw [if_neg h]

/-- Writing back a residue already present in a well-formed structure
changes nothing. -/
theorem replaceRes_self {p : Protein} {r : Residue}
    (hn : (p.residues.map Residue.rid).Nodup)
    (hsub : ∀ ch ∈ p.chains, ∀ x ∈ ch.residues, x ∈ p.residues)
    (hm : r ∈ p.residues) :
    replaceRes p r = p := by
  have hres : (p.residues.map fun y => if y.rid = r.rid then r else y) =
      p.residues := replace_list_self hn hm
  have hch : (p.chains.map fun ch =>
      ({ residues := ch.residues.map fun y => if y.rid = r.rid then r else y } : Chain)) =
      p.chains := by
    apply map_id_of_eq
    intro ch hchm
    have : (ch.residues.map fun y => if y.rid = r.rid then r else y) =
        ch.residues :=
      map_id_of_eq _ _ fun y hy => by
        by_cases h : y.rid = r.rid
        · rw [if_pos h]
          exact (List.inj_on_of_nodup_map hn (hsub ch hchm y hy) hm h).symm
        · rw [if_neg h]
    rw [this]
  unfold replaceRes
  rw [hres, hch]

/-- A reconciliation step on an already dealt-with ligand residue only
sets the success flag. -/
theorem ligStep_done (lig : String → ℚ × ℚ) (s : RState) (r : Residue)
    (hk : r.kind = ResKind.ligand)
    (hn : (s.protein.residues.map Residue.rid).Nodup)
    (hsub : ∀ ch ∈ s.protein.chains, ∀ x ∈ ch.residues, x ∈ s.protein.residues)
    (hmem : r ∈ s.protein.residues)
    (hd : ligDone lig s.misslist r) :
    ligStep lig s r = { s with ligsuccess := true } := by
  obtain ⟨hupd, hpass, hnomiss⟩ := hd
  have hgate : |(updateRes lig r).get_charge -
      (truncQ (updateRes lig r).get_charge : ℚ)| ≤ (1 : ℚ)/1000 := by
    rw [hupd]
    exact hpass
  rw [ligStep_pass lig s r hk hgate, hupd]
  have hpop : popAtoms r.get_atoms s.misslist = (s.misslist, []) :=
    popAtoms_none _ _ (by simpa [Residue.get_atoms] using hnomiss)
  rw [hpop, replaceRes_self hn hsub hmem]
  simp

/-- The reconciliation loop over residues that are all either
non-ligands or already dealt with only recomputes the success flag. -/
theorem ligLoop_done (lig : String → ℚ × ℚ) : ∀ (l : List Residue) (s : RState),
    (s.protein.residues.map Residue.rid).Nodup →
    (∀ ch ∈ s.protein.chains, ∀ x ∈ ch.residues, x ∈ s.protein.residues) →
    (∀ r ∈ l, r ∈ s.protein.residues) →
    (∀ r ∈ l, r.kind = ResKind.ligand → ligDone lig s.misslist r) →
    ligLoop lig l s =
      { s with ligsuccess :=
          s.ligsuccess || l.any fun r => r.kind == ResKind.ligand } := by
  intro l
  induction l with
  | nil =>
    intro s _ _ _ _
    simp [ligLoop]
  | cons r rest ih =>
    intro s hn hsub hmem hdone
    by_cases hk : r.kind = ResKind.ligand
    · have hstep : ligStep lig s r = { s with ligsuccess := true } :=
        ligStep_done lig s r hk hn hsub (hmem r (List.mem_cons_self r rest))
          (hdone r (List.mem_cons_self r rest) hk)
    

      rw [ligLoop, hstep,
        ih { s with ligsuccess := true } hn hsub
          (fun b hb => hmem b (List.mem_cons_of_mem r hb))
          (fun b hb hbk => hdone b (List.mem_cons_of_mem r hb) hbk)]
      simp [List.any_cons, hk]
    · have hbeq : (r.kind == ResKind.ligand) = false :=
        beq_eq_false_iff_ne.mpr hk
      rw [ligLoop, ligStep_nonlig lig s r hk,
        ih s hn hsub (fun b hb => hmem b (List.mem_cons_of_mem r hb))
          (fun b hb hbk => hdone b (List.mem_cons_of_mem r hb) hbk)]
      simp [List.any_cons, hbeq]

/-- Members of an aliasing write-back are the written residue or
untouched residues with a different identity. -/
theorem replace_mem_cases {l : List Residue} {r' x : Residue}
    (hx : x ∈ l.map fun z => if z.rid = r'.rid then r' else z) :
    x = r' ∨ (x ∈ l ∧ x.rid ≠ r'.rid) := by
  obtain ⟨y, hy, hfy⟩ := List.mem_map.mp hx
  by_cases hyr : y.rid = r'.rid
  · rw [if_pos hyr] at hfy
    exact Or.inl hfy.symm
  · rw [if_neg hyr] at hfy
    exact Or.inr (hfy ▸ ⟨hy, hyr⟩)

/-- A residue with a different identity survives the aliasing write-back
unchanged. -/
theorem replace_mem_of_mem_ne {l : List Residue} {r' x : Residue}
    (hx : x ∈ l) (hne : x.rid ≠ r'.rid) :
    x ∈ l.map fun z => if z.rid = r'.rid then r' else z := by
  have h := List.mem_map_of_mem (fun z => if z.rid = r'.rid then r' else z) hx
  simpa [hne] using h

/-- The written residue is a member of the write-back whenever a residue
with its identity was present. -/
theorem replace_mem_self {l : List Residue} {r r' : Residue}
    (hm : r ∈ l) (hrr : r.rid = r'.rid) :
    r' ∈ l.map fun z => if z.rid = r'.rid then r' else z := by
  have h := List.mem_map_of_mem (fun z => if z.rid = r'.rid then r' else z) hm
  simpa [hrr] using h

/-- One reconciliation step preserves the loop invariant, discharging
the head of the worklist. -/
theorem stInv_step (lig : String → ℚ × ℚ) (r : Residue) (rest : List Residue)
    (s : RState) (h : StInv lig (r :: rest) s) :
    StInv lig rest (ligStep lig s r) := by
  obtain ⟨h1, h2, h3, h4, h5, h6, h7, h8⟩ := h
  have hrmem : r ∈ s.protein.residues := h5 r (List.mem_cons_self r rest)
  have h6' : (rest.map Residue.rid).Nodup := by
    rw [List.map_cons] at h6
    exact (List.nodup_cons.mp h6).2
  have hrid_rest : r.rid ∉ rest.map Residue.rid := by
    rw [List.map_cons] at h6
    exact (List.nodup_cons.mp h6).1
  have hrest_ne : ∀ x ∈ rest, x.rid ≠ r.rid := by
    intro x hx he
    exact hrid_rest (he ▸ List.mem_map_of_mem Residue.rid hx)
  by_cases hk : r.kind = ResKind.ligand
  case neg =>
    rw [ligStep_nonlig lig s r hk]
    refine ⟨h1, h2, h3, h4, fun x hx => h5 x (List.mem_cons_of_mem r hx), h6',
      ?_, ?_⟩
    · intro x hx hxl
      rcases h7 x hx hxl with hin | hdone
      · rcases List.mem_cons.mp hin with he | hin'
        · exact absurd (he ▸ hxl) hk
        · exact Or.inl hin'
      · exact Or.inr hdone
    · rw [h8]
      constructor
      · rintro ⟨x, hx, hxn, hxl⟩
        exact ⟨x, hx, fun hm => hxn (List.mem_cons_of_mem r hm), hxl⟩
      · rintro ⟨x, hx, hxn, hxl⟩
        refine ⟨x, hx, ?_, hxl⟩
        intro hm
        rcases List.mem_cons.mp hm with he | hm'
        · exact hk (he ▸ hxl)
        · exact hxn hm'
  case pos =>
    have hr'rid : (updateRes lig r).rid = r.rid := updateRes_rid lig r
    have hr'kind : (updateRes lig r).kind = ResKind.ligand := by
      rw [updateRes_kind]
      exact hk
    have hpop1 : (popAtoms (updateRes lig r).get_atoms s.misslist).1 =
        s.misslist.filter fun m => !(aidIn (updateRes lig r).get_atoms m.aid) :=
      popAtoms_fst _ h4
    have hpopsub :
        List.Sublist (popAtoms (updateRes lig r).get_atoms s.misslist).1
          s.misslist := by
      rw [hpop1]
      exact List.filter_sublist s.misslist
    have h4' : (((popAtoms (updateRes lig r).get_atoms s.misslist).1).map
        Atom.aid).Nodup :=
      h4.sublist (hpopsub.map Atom.aid)
    by_cases hgate : (1 : ℚ)/1000 <
        |(updateRes lig r).get_charge - (truncQ (updateRes lig r).get_charge : ℚ)|
    case neg =>
      have hle : |(updateRes lig r).get_charge -
          (truncQ (updateRes lig r).get_charge : ℚ)| ≤ (1 : ℚ)/1000 :=
        not_lt.mp hgate
      rw [ligStep_pass lig s r hk hle]
      refine ⟨?_, ?_, ?_, h4', ?_, h6', ?_, ?_⟩
      · show ((s.protein.residues.map fun y =>
            if y.rid = (updateRes lig r).rid then updateRes lig r else y).map
            Residue.rid).Nodup
        rw [map_rid_replace]
        exact h1
      · intro ch hch x hx
        obtain ⟨ch0, hch0, rfl⟩ := List.mem_map.mp hch
        have hx' : x ∈ ch0.residues.map fun z =>
            if z.rid = (updateRes lig r).rid then updateRes lig r else z := hx
        rcases replace_mem_cases hx' with rfl | ⟨hxl, hxne⟩
        · exact replace_mem_self hrmem hr'rid.symm
        · exact replace_mem_of_mem_ne (h2 ch0 hch0 x hxl) hxne
      · intro ch hch
        obtain ⟨ch0, hch0, rfl⟩ := List.mem_map.mp hch
        show ((ch0.residues.map fun y =>
            if y.rid = (updateRes lig r).rid then updateRes lig r else y).map
            Residue.rid).Nodup
        rw [map_rid_replace]
        exact h3 ch0 hch0
      · intro x hx
        have hxne : x.rid ≠ (updateRes lig r).rid := by
          rw [hr'rid]
          exact hrest_ne x hx
        exact replace_mem_of_mem_ne (h5 x (List.mem_cons_of_mem r hx)) hxne
      · intro x hx hxk
        have hx' : x ∈ s.protein.residues.map fun z =>
            if z.rid = (updateRes lig r).rid then updateRes lig r else z := hx
        rcases replace_mem_cases hx' with rfl | ⟨hxl, hxne⟩
        · refine Or.inr ⟨updateRes_idem lig r, hle, ?_⟩
          intro a ha
          exact popAtoms_fst_aid_false h4 (aidIn_iff.mpr ⟨a, ha, rfl⟩)
        · rcases h7 x hxl hxk with hin | hdone
          · rcases List.mem_cons.mp hin with he | hin'
            · refine absurd ?_ hxne
              rw [he]
              exact hr'rid.symm
            · exact Or.inl hin'
          · exact Or.inr (ligDone_mono hpopsub hdone)
      · apply iff_of_true rfl
        refine ⟨updateRes lig r, replace_mem_self hrmem hr'rid.symm, ?_, hr'kind⟩
        intro hmem'
        have hm := List.mem_map_of_mem Residue.rid hmem'
        rw [hr'rid] at hm
        exact hrid_rest hm
    case pos =>
      rw [ligStep_fail lig s r hk hgate]
      refine ⟨?_, ?_, ?_, h4', ?_, h6', ?_, ?_⟩
      · show (((s.protein.residues.map fun y =>
            if y.rid = (updateRes lig r).rid then updateRes lig r else y).erase
            (updateRes lig r)).map Residue.rid).Nodup
        have hmn : ((s.protein.residues.map fun y =>
            if y.rid = (updateRes lig r).rid then updateRes lig r else y).map
            Residue.rid).Nodup := by
          rw [map_rid_replace]
          exact h1
        exact hmn.sublist ((List.erase_sublist _ _).map Residue.rid)
      · intro ch hch x hx
        obtain ⟨ch1, hch1, rfl⟩ := List.mem_map.mp hch
        obtain ⟨ch0, hch0, rfl⟩ := List.mem_map.mp hch1
        have hxne : x.rid ≠ (updateRes lig r).rid :=
          replace_erase_rid_free ch0.residues (updateRes lig r) (h3 ch0 hch0) x hx
        have hx0 : x ∈ ch0.residues.map fun z =>
            if z.rid = (updateRes lig r).rid then updateRes lig r else z :=
          List.mem_of_mem_erase hx
        rcases replace_mem_cases hx0 with rfl | ⟨hxl, _⟩
        · exact absurd rfl hxne
        · have hxs : x ∈ s.protein.residues.map fun z =>
              if z.rid = (updateRes lig r).rid then updateRes lig r else z :=
            replace_mem_of_mem_ne (h2 ch0 hch0 x hxl) hxne
          have hxner' : x ≠ updateRes lig r := fun he => hxne (he ▸ rfl)
          exact (List.mem_erase_of_ne hxner').mpr hxs
      · intro ch hch
        obtain ⟨ch1, hch1, rfl⟩ := List.mem_map.mp hch
        obtain ⟨ch0, hch0, rfl⟩ := List.mem_map.mp hch1
        show (((ch0.residues.map fun y =>
            if y.rid = (updateRes lig r).rid then updateRes lig r else y).erase
            (updateRes lig r)).map Residue.rid).Nodup
        have hmn : ((ch0.residues.map fun y =>
            if y.rid = (updateRes lig r).rid then updateRes lig r else y).map
            Residue.rid).Nodup := by
          rw [map_rid_replace]
          exact h3 ch0 hch0
        exact hmn.sublist ((List.erase_sublist _ _).map Residue.rid)
      · intro x hx
        have hxne : x.rid ≠ (updateRes lig r).rid := by
          rw [hr'rid]
          exact hrest_ne x hx
        have hxm : x ∈ s.protein.residues.map fun z =>
            if z.rid = (updateRes lig r).rid then updateRes lig r else z :=
          replace_mem_of_mem_ne (h5 x (List.mem_cons_of_mem r hx)) hxne
        have hxner' : x ≠ updateRes lig r := fun he => hxne (he ▸ rfl)
        exact (List.mem_erase_of_ne hxner').mpr hxm
      · intro x hx hxk
        have hxne : x.rid ≠ (updateRes lig r).rid :=
          replace_erase_rid_free s.protein.residues (updateRes lig r) h1 x hx
        have hx0 : x ∈ s.protein.residues.map fun z =>
            if z.rid = (updateRes lig r).rid then updateRes lig r else z :=
          List.mem_of_mem_erase hx
        rcases replace_mem_cases hx0 with rfl | ⟨hxl, _⟩
        · exact absurd rfl hxne
        · rcases h7 x hxl hxk with hin | hdone
          · rcases List.mem_cons.mp hin with he | hin'
            · refine absurd ?_ hxne
              rw [he]
              exact hr'rid.symm
            · exact Or.inl hin'
          · exact Or.inr (ligDone_mono hpopsub hdone)
      · show s.ligsuccess = true ↔ _
        rw [h8]
        constructor
        · rintro ⟨x, hx, hxn, hxl⟩
          have hxner : x ≠ r := fun he => hxn (he ▸ List.mem_cons_self r rest)
          have hxnerid : x.rid ≠ r.rid :=
            fun he => hxner (List.inj_on_of_nodup_map h1 hx hrmem he)
          have hxne' : x.rid ≠ (updateRes lig r).rid := by
            rw [hr'rid]
            exact hxnerid
          have hxm : x ∈ s.protein.residues.map fun z =>
              if z.rid = (updateRes lig r).rid then updateRes lig r else z :=
            replace_mem_of_mem_ne hx hxne'
          have hxner' : x ≠ updateRes lig r := fun he => hxne' (he ▸ rfl)
          exact ⟨x, (List.mem_erase_of_ne hxner').mpr hxm,
            fun hm => hxn (List.mem_cons_of_mem r hm), hxl⟩
        · rintro ⟨x, hx, hxn, hxl⟩
          have hxne : x.rid ≠ (updateRes lig r).rid :=
            replace_erase_rid_free s.protein.residues (updateRes lig r) h1 x hx
          have hx0 : x ∈ s.protein.residues.map fun z =>
              if z.rid = (updateRes lig r).rid then updateRes lig r else z :=
            List.mem_of_mem_erase hx
          rcases replace_mem_cases hx0 with rfl | ⟨hxl0, _⟩
          · exact absurd rfl hxne
          · refine ⟨x, hxl0, ?_, hxl⟩
            intro hm
            rcases List.mem_cons.mp hm with he | hm'
            · apply hxne
              rw [he]
              exact hr'rid.symm
            · exact hxn hm'

/-- Folding reconciliation steps over the whole worklist preserves the
invariant down to the empty worklist. -/
theorem stInv_loop (lig : String → ℚ × ℚ) : ∀ (l : List Residue) (s : RState),
    StInv lig l s → StInv lig [] (ligLoop lig l s) := by
  intro l
  induction l with
  | nil => intro s h; exact h
  | cons r rest ih =>
    intro s h
    exact ih _ (stInv_step lig r rest s h)

/-- A well-formed state satisfies the loop invariant at the start of
reconciliation. -/
theorem stInv_init (lig : String → ℚ × ℚ) (st : RState) (h : WFState st) :
    StInv lig st.protein.residues { st with ligsuccess := false } := by
  obtain ⟨w1, w2, w3, w4⟩ := h
  refine ⟨w1, w2, w3, w4, fun r hr => hr, w1, fun x hx _ => Or.inl hx, ?_⟩
  apply iff_of_false
  · simp
  · rintro ⟨x, hx, hxn, _⟩
    exact hxn hx

/-- C7: ligand reconciliation together with the subsequent miss-list
cleanup is idempotent on well-formed states: running it a second time on
the structure, hit list and miss list produced by a first run changes
nothing — no atom moves between the lists, no residue is added to or
removed from the structure, and no new warning is emitted. -/
theorem reconcile_idempotent (lig : String → ℚ × ℚ) (st : RState)
    (h : WFState st) :
    reconcileAndCleanup lig (reconcileAndCleanup lig st) =
      reconcileAndCleanup lig st := by
  have hinv : StInv lig [] (reconcileLigands lig st) :=
    stInv_loop lig st.protein.residues _ (stInv_init lig st h)
  obtain ⟨i1, i2, i3, i4, _, _, i7, i8⟩ := hinv
  have hdoneT : ∀ x ∈ (reconcileLigands lig st).protein.residues,
      x.kind = ResKind.ligand →
      ligDone lig (reconcileLigands lig st).misslist x :=
    fun x hx hk => (i7 x hx hk).resolve_left (List.not_mem_nil x)
  have hExT : (reconcileLigands lig st).ligsuccess = true ↔
      ∃ x ∈ (reconcileLigands lig st).protein.residues,
        x.kind = ResKind.ligand := by
    rw [i8]
    constructor
    · rintro ⟨x, hx, _, hk⟩
      exact ⟨x, hx, hk⟩
    · rintro ⟨x, hx, hk⟩
      exact ⟨x, hx, List.not_mem_nil x, hk⟩
  by_cases hb : (reconcileLigands lig st).ligsuccess = true
  · have hS1 : reconcileAndCleanup lig st =
        { reconcileLigands lig st with
          misslist := (reconcileLigands lig st).misslist.filter isBiopolymer } := by
      show missCleanup (reconcileLigands lig st) = _
      simp [missCleanup, hb, missCleanupList_eq_filter]
    have hdone2 : ∀ x ∈ (reconcileLigands lig st).protein.residues,
        x.kind = ResKind.ligand →
        ligDone lig ((reconcileLigands lig st).misslist.filter isBiopolymer) x :=
      fun x hx hk => ligDone_mono (List.filter_sublist _) (hdoneT x hx hk)
    have hany : ((reconcileLigands lig st).protein.residues.any
        fun x => x.kind == ResKind.ligand) = true := by
      obtain ⟨x, hx, hk⟩ := hExT.mp hb
      exact List.any_eq_true.mpr ⟨x, hx, by simp [hk]⟩
    have hL : reconcileLigands lig
        { reconcileLigands lig st with
          misslist := (reconcileLigands lig st).misslist.filter isBiopolymer } =
        { reconcileLigands lig st with
          misslist := (reconcileLigands lig st).misslist.filter isBiopolymer,
          ligsuccess := true } := by
      show ligLoop lig (reconcileLigands lig st).protein.residues
        { reconcileLigands lig st with
          misslist := (reconcileLigands lig st).misslist.filter isBiopolymer,
          ligsuccess := false } = _
      rw [ligLoop_done lig (reconcileLigands lig st).protein.residues
        { reconcileLigands lig st with
          misslist := (reconcileLigands lig st).misslist.filter isBiopolymer,
          ligsuccess := false } i1 i2
        (fun r hr => hr) (fun r hr hk => hdone2 r hr hk)]
      simp [hany]
    have hM : missCleanup
        { reconcileLigands lig st with
          misslist := (reconcileLigands lig st).misslist.filter isBiopolymer,
          ligsuccess := true } =
        { reconcileLigands lig st with
          misslist := (reconcileLigands lig st).misslist.filter isBiopolymer,
          ligsuccess := true } := by
      have hff : ((reconcileLigands lig st).misslist.filter
          isBiopolymer).filter isBiopolymer =
          (reconcileLigands lig st).misslist.filter isBiopolymer :=
        List.filter_eq_self.mpr fun a ha => (List.mem_filter.mp ha).2
      simp [missCleanup, missCleanupList_eq_filter, hff]
    rw [hS1]
    show missCleanup (reconcileLigands lig _) = _
    rw [hL, hM]
    have hfin : ({ reconcileLigands lig st with
        misslist := (reconcileLigands lig st).misslist.filter isBiopolymer,
        ligsuccess := true } : RState) =
        { reconcileLigands lig st with
          misslist := (reconcileLigands lig st).misslist.filter isBiopolymer } := by
      rw [← hb]
    exact hfin
  · have hbf : (reconcileLigands lig st).ligsuccess = false := by
      revert hb; cases (reconcileLigands lig st).ligsuccess <;> simp
    have hS1 : reconcileAndCleanup lig st = reconcileLigands lig st := by
      show missCleanup (reconcileLigands lig st) = _
      simp [missCleanup, hbf]
    have hnolig : ∀ x ∈ (reconcileLigands lig st).protein.residues,
        x.kind ≠ ResKind.ligand := by
      intro x hx hk
      have hcontra := hExT.mpr ⟨x, hx, hk⟩
      rw [hbf] at hcontra
      cases hcontra
    have hany : ((reconcileLigands lig st).protein.residues.any
        fun x => x.kind == ResKind.ligand) = false := by
      cases hA : (reconcileLigands lig st).protein.residues.any
          fun x => x.kind == ResKind.ligand
      · rfl
      · obtain ⟨x, hx, hk⟩ := List.any_eq_true.mp hA
        exact absurd (beq_iff_eq.mp hk) (hnolig x hx)
    have hL : reconcileLigands lig (reconcileLigands lig st) =
        { reconcileLigands lig st with ligsuccess := false } := by
      show ligLoop lig (reconcileLigands lig st).protein.residues
        { reconcileLigands lig st with ligsuccess := false } = _
      rw [ligLoop_done lig (reconcileLigands lig st).protein.residues
        { reconcileLigands lig st with ligsuccess := false } i1 i2
        (fun r hr => hr) (fun r hr hk => hdoneT r hr hk)]
      simp [hany]
    rw [hS1]
    show missCleanup (reconcileLigands lig (reconcileLigands lig st)) = _
    rw [hL]
    have hM : missCleanup { reconcileLigands lig st with ligsuccess := false } =
        { reconcileLigands lig st with ligsuccess := false } := by
      simp [missCleanup]
    rw [hM]
    rw [← hbf]

/-- C7 witness: a concrete well-formed state with a ligand, a water and
an amino-acid residue, all atoms missed. -/
theorem reconcile_idempotent_witness :
    reconcileAndCleanup ligGood (reconcileAndCleanup ligGood stAllMiss) =
      reconcileAndCleanup ligGood stAllMiss :=
  reconcile_idempotent ligGood stAllMiss (by decide)
